import Mathlib

/-!
A verification development for the `ai-compliance` gateway and audit services.

The Python sources are shallowly embedded: pure functions become Lean
functions, dictionaries become structures with `Option` fields (Python
`dict.get(k, d)` is `Option.getD`), Python truthiness of lists/strings is
modelled explicitly, and the regex engine behind each compiled recogniser is
abstracted as a `finditer` function field (the only part of the detection
pipeline that is not embedded).  CPython's `list(set(...))` iteration order is
unspecified; it is modelled here as first-occurrence order — the embedded code
never sorts these lists either way, which is what the relevant theorems are
about.
-/

namespace AIComp

/-- Python truthiness of an optional list (`None` and `[]` are falsy). -/
def pyTruthyList {α : Type} : Option (List α) → Bool
  | none => false
  | some [] => false
  | some (_ :: _) => true

/-- Python truthiness of an optional string (`None` and `""` are falsy). -/
def pyTruthyStr : Option String → Bool
  | none => false
  | some s => !(s == "")

/-- Python `x or default` for an optional string (`None` and `""` are falsy). -/
def pyOrStr (o : Option String) (d : String) : String :=
  match o with
  | none => d
  | some s => if s = "" then d else s

/-- Python `s.update(xs)` / `list(set(xs))` modelled over insertion-ordered
lists: add each element of `xs` not already present, keeping first-occurrence
order.  (CPython set iteration order is unspecified; no code downstream sorts
these lists, so any fixed order is a faithful refinement.) -/
def pySetUpdate {α : Type} [DecidableEq α] (s xs : List α) : List α :=
  xs.foldl (fun acc x => if x ∈ acc then acc else acc ++ [x]) s

/-- Stable insertion of `x` into a list w.r.t. a boolean relation: `x` goes in
front of the first element `y` with `le x y`. -/
def insertLe {α : Type} (le : α → α → Bool) (x : α) : List α → List α
  | [] => [x]
  | y :: ys => if le x y then x :: y :: ys else y :: insertLe le x ys

/-- Stable sort (insertion sort).  Python's `list.sort` / `sorted` are stable
sorts; any stable sort computes the same list, so this is a faithful model of
`sorted(..., key=...)` with `le` the key comparison. -/
def isort {α : Type} (le : α → α → Bool) : List α → List α
  | [] => []
  | x :: xs => insertLe le x (isort le xs)

/-! ## Detection data model (`app/detection/patterns.py`, `detector.py`) -/

/-- `Severity` enumeration from `patterns.py`. -/
inductive Severity
  | LOW
  | MEDIUM
  | HIGH
  | CRITICAL
deriving DecidableEq

/-- The `.value` string of the `Severity` enum. -/
def Severity.value : Severity → String
  | .LOW => "LOW"
  | .MEDIUM => "MEDIUM"
  | .HIGH => "HIGH"
  | .CRITICAL => "CRITICAL"

/-- `PIIDetector._severity_rank` and `PromptScanner._severity_rank` (the
`ranks` dictionary covers every severity, so the `.get(_, 0)` default never
fires). -/
def severityRank : Severity → Nat
  | .LOW => 1
  | .MEDIUM => 2
  | .HIGH => 3
  | .CRITICAL => 4

/-- `PIIType` enumeration from `patterns.py`. -/
inductive PIIType
  | EMAIL
  | PHONE
  | PAN
  | AADHAAR
  | CREDIT_CARD
  | SSN
  | IP_ADDRESS
  | PASSPORT
  | DATE_OF_BIRTH
  | BANK_ACCOUNT
deriving DecidableEq

/-- The `.value` string of the `PIIType` enum. -/
def PIIType.value : PIIType → String
  | .EMAIL => "EMAIL"
  | .PHONE => "PHONE"
  | .PAN => "PAN"
  | .AADHAAR => "AADHAAR"
  | .CREDIT_CARD => "CREDIT_CARD"
  | .SSN => "SSN"
  | .IP_ADDRESS => "IP_ADDRESS"
  | .PASSPORT => "PASSPORT"
  | .DATE_OF_BIRTH => "DATE_OF_BIRTH"
  | .BANK_ACCOUNT => "BANK_ACCOUNT"

/-- A raw regex match (`re.Match`): its span into the scanned string and its
matched text (`match.start()`, `match.end()`, `match.group()`). -/
structure RawMatch where
  start : Nat
  stop : Nat
  group : String
deriving DecidableEq

/-- `PIIPattern` from `patterns.py`.  The compiled regular expression is
abstracted as its `finditer` behaviour: the list of matches it yields on a
given string, in the order `re.finditer` yields them (ascending, since regex
scanning is left to right). -/
structure PIIPattern where
  pii_type : PIIType
  severity : Severity
  finditer : String → List RawMatch

/-- `Detection` dataclass from `detector.py`.  `end` is a reserved word in
Lean, so the field is called `stop`. -/
structure Detection where
  pii_type : PIIType
  value : String
  start : Nat
  stop : Nat
  severity : Severity
  masked_value : String
deriving DecidableEq

/-- Construction of a `Detection` as done in `PIIDetector.detect`: the
detector never passes `masked_value`, so `__post_init__` always fills in
`[<TYPE>_REDACTED]`. -/
def mkDetection (t : PIIType) (v : String) (s e : Nat) (sev : Severity) : Detection :=
  { pii_type := t, value := v, start := s, stop := e, severity := sev
  , masked_value := "[" ++ t.value ++ "_REDACTED]" }

/-- `DetectionResult` dataclass from `detector.py`. -/
structure DetectionResult where
  text : String
  detections : List Detection := []
  highest_severity : Severity := .LOW
deriving DecidableEq

/-- `DetectionResult.has_pii` (`len(self.detections) > 0`). -/
def DetectionResult.has_pii (r : DetectionResult) : Bool :=
  r.detections.length > 0

/-- `DetectionResult.pii_types` (`list(set(d.pii_type for d in ...))`). -/
def DetectionResult.pii_types (r : DetectionResult) : List PIIType :=
  pySetUpdate [] (r.detections.map (·.pii_type))

/-- `PIIDetector` state: its pattern list and the enabled/disabled type
configuration (`disabled_types or []` makes the stored field a plain list). -/
structure PIIDetector where
  patterns : List PIIPattern
  enabled_types : Option (List PIIType) := none
  disabled_types : List PIIType := []

/-- `PIIDetector._should_check_pattern`.  Note the Python truthiness of
`self.enabled_types` in `if self.enabled_types and ...`. -/
def PIIDetector.should_check_pattern (det : PIIDetector) (p : PIIPattern) : Bool :=
  if pyTruthyList det.enabled_types && !(decide (p.pii_type ∈ det.enabled_types.getD [])) then
    false
  else if p.pii_type ∈ det.disabled_types then
    false
  else
    true

/-- `PIIDetector._ranges_overlap`. -/
def rangesOverlap (r1 r2 : Nat × Nat) : Bool :=
  r1.1 < r2.2 && r2.1 < r1.2

/-- The body of the `for detection in detections` loop of
`PIIDetector._remove_overlaps`, for one incoming `detection` `d`: walk the
accumulated `result` list looking for the first overlapping entry; on overlap,
replace that entry when `d` is strictly more severe and otherwise drop `d`
(the `break`); if nothing overlaps, append `d`. -/
def overlapsInto (d : Detection) : List Detection → List Detection
  | [] => [d]
  | e :: rest =>
    if rangesOverlap (d.start, d.stop) (e.start, e.stop) then
      (if severityRank d.severity > severityRank e.severity then d else e) :: rest
    else
      e :: overlapsInto d rest

/-- `PIIDetector._remove_overlaps`. -/
def removeOverlaps (ds : List Detection) : List Detection :=
  ds.foldl (fun res d => overlapsInto d res) []

/-- Ascending-by-`start` comparison used by `detections.sort(key=lambda d: d.start)`. -/
def leStart (a b : Detection) : Bool :=
  a.start ≤ b.start

/-- The body of the `for match in matches` loop of `PIIDetector.detect`:
append a `Detection` for the raw match and track the highest severity seen. -/
def matchStep (p : PIIPattern) (acc : List Detection × Severity) (m : RawMatch) :
    List Detection × Severity :=
  (acc.1 ++ [mkDetection p.pii_type m.group m.start m.stop p.severity],
   if severityRank p.severity > severityRank acc.2 then p.severity else acc.2)

/-- The body of the `for pattern in self.patterns` loop of
`PIIDetector.detect`: skip unchecked patterns, otherwise fold over the
pattern's matches. -/
def rawStep (det : PIIDetector) (text : String) (acc : List Detection × Severity)
    (p : PIIPattern) : List Detection × Severity :=
  if det.should_check_pattern p then (p.finditer text).foldl (matchStep p) acc
  else acc

/-- The raw detection pass of `PIIDetector.detect`: the per-pattern
`finditer` loop, appending a `Detection` per raw match and tracking the
highest severity seen over the raw (pre-collapse) matches. -/
def PIIDetector.rawScan (det : PIIDetector) (text : String) : List Detection × Severity :=
  det.patterns.foldl (rawStep det text) ([], Severity.LOW)

/-- `PIIDetector.detect`: run the raw pass, sort by `start` (stably, as
`list.sort` is), and collapse overlaps.  The returned `highest_severity` is
the raw (pre-collapse) maximum unless the final list is empty. -/
def PIIDetector.detect (det : PIIDetector) (text : String) : DetectionResult :=
  if text = "" then
    { text := text }
  else
    let raw := det.rawScan text
    let dets := removeOverlaps (isort leStart raw.1)
    { text := text
    , detections := dets
    , highest_severity := if dets.isEmpty then Severity.LOW else raw.2 }

/-- `PIIDetector.detect_types`. -/
def PIIDetector.detect_types (det : PIIDetector) (text : String) : List PIIType :=
  (det.detect text).pii_types

/-! ## Masker (`app/enforcement/masker.py`)

Python strings are indexed by code point, so text is modelled as `List Char`;
`result[:start] + mask + result[end:]` becomes `take`/`drop` surgery.  The
orchestrator constructs `PIIMasker()` with the default
`"[{type}_REDACTED]"` format, which is the format modelled here. -/

/-- `PIIMasker.get_mask_value` with the default mask format. -/
def get_mask_value (t : PIIType) : List Char :=
  ("[" ++ t.value ++ "_REDACTED]").toList

/-- One iteration of the replacement loop in `PIIMasker.mask_text`:
`result = result[:d.start] + mask + result[d.end:]`. -/
def maskStep (res : List Char) (d : Detection) : List Char :=
  res.take d.start ++ get_mask_value d.pii_type ++ res.drop d.stop

/-- Descending-by-`start` comparison used by
`sorted(detections, key=lambda d: d.start, reverse=True)`. -/
def geStart (a b : Detection) : Bool :=
  b.start ≤ a.start

/-- The `types_to_mask` filter step of `PIIMasker.mask_text`.  Note the
Python truthiness of `types_to_mask` (`None` and `[]` both mean "mask
everything"). -/
def effectiveDetections (detections : List Detection)
    (types_to_mask : Option (List String)) : List Detection :=
  if pyTruthyList types_to_mask then
    detections.filter (fun d => d.pii_type.value ∈ types_to_mask.getD [])
  else detections

/-- `PIIMasker.mask_text`: filter, then replace spans from highest `start` to
lowest, with a second early return when the filter leaves nothing. -/
def mask_text (text : List Char) (detections : List Detection)
    (types_to_mask : Option (List String)) : List Char :=
  if detections = [] then text
  else
    let ds := effectiveDetections detections types_to_mask
    if ds = [] then text
    else (isort geStart ds).foldl maskStep text

/-- A conversation message as the plain dict used on the wire
(`{"role": ..., "content": ...}`); fields are optional because the scanner
reads them with `dict.get` defaults. -/
structure Msg where
  role : Option String := none
  content : Option String := none
deriving DecidableEq

/-- `PIIMasker.mask_messages`.  `message_detections` is the index-keyed dict;
a message is rewritten only when its index is a key with a non-empty
detection list, and a new message list is always produced. -/
def mask_messages (messages : List Msg)
    (message_detections : List (Nat × List Detection))
    (types_to_mask : Option (List String)) : List Msg :=
  messages.enum.map (fun (im : Nat × Msg) =>
    match message_detections.lookup im.1 with
    | some ds =>
      if ds = [] then im.2
      else
        { im.2 with
          content := some (String.mk (mask_text ((im.2.content.getD "").toList) ds types_to_mask)) }
    | none => im.2)

/-! ## Scanner (`app/detection/scanner.py`) -/

/-- `MessageScan` dataclass. -/
structure MessageScan where
  role : String
  index : Nat
  detection_result : DetectionResult
deriving DecidableEq

/-- `MessageScan.detections`. -/
def MessageScan.detections (m : MessageScan) : List Detection :=
  m.detection_result.detections

/-- `MessageScan.has_pii`. -/
def MessageScan.has_pii (m : MessageScan) : Bool :=
  m.detection_result.has_pii

/-- `ScanResult` dataclass. -/
structure ScanResult where
  message_scans : List MessageScan := []
  total_detections : Nat := 0
  highest_severity : Severity := .LOW
  pii_types_found : List PIIType := []
deriving DecidableEq

/-- `ScanResult.has_pii`. -/
def ScanResult.has_pii (r : ScanResult) : Bool :=
  r.total_detections > 0

/-- `ScanResult.critical_found`. -/
def ScanResult.critical_found (r : ScanResult) : Bool :=
  r.highest_severity = Severity.CRITICAL

/-- `ScanResult.risk_flags`. -/
def ScanResult.risk_flags (r : ScanResult) : List String :=
  r.pii_types_found.map (·.value)

/-- `PromptScanner` state. -/
structure PromptScanner where
  detector : PIIDetector
  scan_roles : Option (List String) := none

/-- The running state of the `for index, message in enumerate(messages)` loop
in `PromptScanner.scan`. -/
structure ScanAcc where
  message_scans : List MessageScan
  all_pii_types : List PIIType
  highest_severity : Severity
  total_detections : Nat

/-- The body of the `for index, message in enumerate(messages)` loop in
`PromptScanner.scan`.  Note the Python truthiness in
`if self.scan_roles and role not in self.scan_roles: continue`, the `.get`
defaults for `role`/`content`, and that aggregation only happens for messages
whose detection result has PII. -/
def scanStep (sc : PromptScanner) (acc : ScanAcc) (im : Nat × Msg) : ScanAcc :=
  let role := im.2.role.getD "unknown"
  let content := im.2.content.getD ""
  if pyTruthyList sc.scan_roles && !(decide (role ∈ sc.scan_roles.getD [])) then
    acc
  else
    let dr := sc.detector.detect content
    let acc := { acc with
      message_scans := acc.message_scans ++ [⟨role, im.1, dr⟩] }
    if dr.has_pii then
      { acc with
        total_detections := acc.total_detections + dr.detections.length
        all_pii_types := pySetUpdate acc.all_pii_types dr.pii_types
        highest_severity :=
          if severityRank dr.highest_severity > severityRank acc.highest_severity then
            dr.highest_severity
          else acc.highest_severity }
    else acc

/-- `PromptScanner.scan`. -/
def PromptScanner.scan (sc : PromptScanner) (messages : List Msg) : ScanResult :=
  let fin := messages.enum.foldl (scanStep sc) ⟨[], [], Severity.LOW, 0⟩
  { message_scans := fin.message_scans
  , total_detections := fin.total_detections
  , highest_severity :=
      if fin.total_detections > 0 then fin.highest_severity else Severity.LOW
  , pii_types_found := fin.all_pii_types }

/-- `PromptScanner.quick_check`: loop over every message (no role filter) and
return on the first message whose `detect_types` is non-empty (Python list
truthiness). -/
def PromptScanner.quick_check (sc : PromptScanner) (messages : List Msg) : Bool :=
  messages.any (fun m => !(sc.detector.detect_types (m.content.getD "")).isEmpty)

/-- `PIIMasker.mask_from_scan_result`: build the index-keyed detection dict
from the message scans that have PII, then delegate to `mask_messages`. -/
def mask_from_scan_result (messages : List Msg) (scan_result : ScanResult)
    (types_to_mask : Option (List String)) : List Msg :=
  let message_detections :=
    (scan_result.message_scans.filter (fun s => s.has_pii)).map
      (fun s => (s.index, s.detections))
  mask_messages messages message_detections types_to_mask

/-! ## Policy model (`app/policies/models.py`) -/

/-- `PolicyAction` enumeration. -/
inductive PolicyAction
  | ALLOW
  | BLOCK
  | MASK
  | WARN
deriving DecidableEq

/-- `PolicyRules` dataclass with its field defaults. -/
structure PolicyRules where
  block_if : List String := []
  mask_if : List String := []
  warn_if : List String := []
  allowed_models : List String := []
  blocked_models : List String := []
  allowed_apps : List String := ["*"]
  blocked_apps : List String := []
deriving DecidableEq

/-- `PolicyRules.is_model_allowed`. -/
def PolicyRules.is_model_allowed (r : PolicyRules) (model : String) : Bool :=
  if model ∈ r.blocked_models then false
  else if r.allowed_models = [] then true
  else model ∈ r.allowed_models

/-- `PolicyRules.is_app_allowed`. -/
def PolicyRules.is_app_allowed (r : PolicyRules) (app_id : String) : Bool :=
  if app_id ∈ r.blocked_apps then false
  else if r.allowed_apps = [] ∨ "*" ∈ r.allowed_apps then true
  else app_id ∈ r.allowed_apps

/-- `PolicyRules.should_block_pii`. -/
def PolicyRules.should_block_pii (r : PolicyRules) (pii_types : List String) : List String :=
  pii_types.filter (fun t => t ∈ r.block_if)

/-- `PolicyRules.should_mask_pii`. -/
def PolicyRules.should_mask_pii (r : PolicyRules) (pii_types : List String) : List String :=
  pii_types.filter (fun t => t ∈ r.mask_if)

/-- `PolicyRules.should_warn_pii`. -/
def PolicyRules.should_warn_pii (r : PolicyRules) (pii_types : List String) : List String :=
  pii_types.filter (fun t => t ∈ r.warn_if)

/-- `Policy` dataclass.  `org_overrides` is the dict tenant-id → rules,
modelled as an association list with `lookup` as dict access. -/
structure Policy where
  version : String := "1.0"
  name : String := "Default Policy"
  description : String := ""
  rules : PolicyRules := {}
  org_overrides : List (String × PolicyRules) := []
deriving DecidableEq

/-- `Policy.get_rules_for_org`: note the Python truthiness of `org_id` in
`if org_id and org_id in self.org_overrides`. -/
def Policy.get_rules_for_org (p : Policy) (org_id : Option String) : PolicyRules :=
  if pyTruthyStr org_id then
    match p.org_overrides.lookup (org_id.getD "") with
    | some r => r
    | none => p.rules
  else p.rules

/-- The `rules` sub-dictionary of a policy document: every key optional, read
with `dict.get(key, default)`. -/
structure RulesData where
  block_if : Option (List String) := none
  mask_if : Option (List String) := none
  warn_if : Option (List String) := none
  allowed_models : Option (List String) := none
  blocked_models : Option (List String) := none
  allowed_apps : Option (List String) := none
  blocked_apps : Option (List String) := none
deriving DecidableEq

/-- A policy document as passed to `Policy.from_dict`. -/
structure PolicyData where
  version : Option String := none
  name : Option String := none
  description : Option String := none
  rules : Option RulesData := none
  org_overrides : Option (List (String × RulesData)) := none

/-- The override-parsing step of `Policy.from_dict`: each field is read with
`override_data.get(field, rules.<field>)`, i.e. an unspecified override field
falls back to the parsed default `rules`' value. -/
def parseOverride (rules : PolicyRules) (od : RulesData) : PolicyRules :=
  { block_if := od.block_if.getD rules.block_if
  , mask_if := od.mask_if.getD rules.mask_if
  , warn_if := od.warn_if.getD rules.warn_if
  , allowed_models := od.allowed_models.getD rules.allowed_models
  , blocked_models := od.blocked_models.getD rules.blocked_models
  , allowed_apps := od.allowed_apps.getD rules.allowed_apps
  , blocked_apps := od.blocked_apps.getD rules.blocked_apps }

/-- `Policy.from_dict`.  The parsed default `rules` use the zero-value
defaults; each org override is parsed with `parseOverride`. -/
def Policy.from_dict (data : PolicyData) : Policy :=
  let rules_data := data.rules.getD {}
  let rules : PolicyRules :=
    { block_if := rules_data.block_if.getD []
    , mask_if := rules_data.mask_if.getD []
    , warn_if := rules_data.warn_if.getD []
    , allowed_models := rules_data.allowed_models.getD []
    , blocked_models := rules_data.blocked_models.getD []
    , allowed_apps := rules_data.allowed_apps.getD ["*"]
    , blocked_apps := rules_data.blocked_apps.getD [] }
  let org_overrides := (data.org_overrides.getD []).map
    (fun kv => (kv.1, parseOverride rules kv.2))
  { version := data.version.getD "1.0"
  , name := data.name.getD "Default Policy"
  , description := data.description.getD ""
  , rules := rules
  , org_overrides := org_overrides }

/-- `PolicyResult` dataclass. -/
structure PolicyResult where
  action : PolicyAction
  reason : String
  violations : List String := []
  pii_to_mask : List String := []
  warnings : List String := []
deriving DecidableEq

/-- `PolicyResult.should_block`. -/
def PolicyResult.should_block (r : PolicyResult) : Bool :=
  r.action = PolicyAction.BLOCK

/-- `PolicyResult.should_mask`. -/
def PolicyResult.should_mask (r : PolicyResult) : Bool :=
  r.action = PolicyAction.MASK || !r.pii_to_mask.isEmpty

/-- `PolicyEngine.evaluate`, as a function of the engine's current policy.
Note the Python truthiness of `app_id` in `if app_id and not ...`. -/
def evaluate (policy : Policy) (model : String) (app_id : Option String)
    (org_id : Option String) (scan_result : ScanResult) : PolicyResult :=
  let rules := policy.get_rules_for_org org_id
  if !rules.is_model_allowed model then
    { action := .BLOCK
    , reason := "Model '" ++ model ++ "' is not allowed by policy"
    , violations := ["MODEL_NOT_ALLOWED:" ++ model] }
  else if pyTruthyStr app_id && !rules.is_app_allowed (app_id.getD "") then
    { action := .BLOCK
    , reason := "Application '" ++ app_id.getD "" ++ "' is not allowed by policy"
    , violations := ["APP_NOT_ALLOWED:" ++ app_id.getD ""] }
  else if !scan_result.has_pii then
    { action := .ALLOW, reason := "No PII detected, request allowed" }
  else
    let pii_types := scan_result.risk_flags
    let block_pii := rules.should_block_pii pii_types
    if block_pii ≠ [] then
      { action := .BLOCK
      , reason := "Request blocked: " ++ String.intercalate ", " block_pii ++ " detected in prompt"
      , violations := block_pii }
    else
      let mask_pii := rules.should_mask_pii pii_types
      let warn_pii := rules.should_warn_pii pii_types
      if mask_pii ≠ [] then
        { action := .MASK
        , reason := "PII will be masked: " ++ String.intercalate ", " mask_pii
        , pii_to_mask := mask_pii
        , warnings := warn_pii }
      else if warn_pii ≠ [] then
        { action := .WARN
        , reason := "Warning: " ++ String.intercalate ", " warn_pii ++ " detected but allowed"
        , warnings := warn_pii }
      else
        { action := .ALLOW
        , reason := "PII detected but not in policy rules"
        , warnings := pii_types }

/-! ## SHA-256 (`hashlib.sha256(...).hexdigest()` in `hash_prompt`)

A direct embedding of SHA-256 over `Nat`, with 32-bit words represented as
naturals reduced `% 2^32`. -/

/-- `2^32`. -/
def M32 : Nat := 4294967296

/-- 32-bit right rotation of a word `x < 2^32`. -/
def rotr32 (n x : Nat) : Nat :=
  (x >>> n) ||| ((x <<< (32 - n)) % M32)

/-- 32-bit bitwise complement of a word `x < 2^32`. -/
def bnot32 (x : Nat) : Nat :=
  4294967295 - x

/-- The SHA-256 round constants (fractional parts of cube roots of the first
64 primes). -/
def sha256K : List Nat :=
  [1116352408, 1899447441, 3049323471, 3921009573, 961987163, 1508970993,
   2453635748, 2870763221, 3624381080, 310598401, 607225278, 1426881987,
   1925078388, 2162078206, 2614888103, 3248222580, 3835390401, 4022224774,
   264347078, 604807628, 770255983, 1249150122, 1555081692, 1996064986,
   2554220882, 2821834349, 2952996808, 3210313671, 3336571891, 3584528711,
   113926993, 338241895, 666307205, 773529912, 1294757372, 1396182291,
   1695183700, 1986661051, 2177026350, 2456956037, 2730485921, 2820302411,
   3259730800, 3345764771, 3516065817, 3600352804, 4094571909, 275423344,
   430227734, 506948616, 659060556, 883997877, 958139571, 1322822218,
   1537002063, 1747873779, 1955562222, 2024104815, 2227730452, 2361852424,
   2428436474, 2756734187, 3204031479, 3329325298]

/-- The SHA-256 initial hash state. -/
def sha256H0 : List Nat :=
  [1779033703, 3144134277, 1013904242, 2773480762, 1359893119, 2600822924,
   528734635, 1541459225]

/-- Big-endian 8-byte encoding of the bit length. -/
def be64 (n : Nat) : List Nat :=
  (List.range 8).map (fun i => (n >>> (8 * (7 - i))) % 256)

/-- SHA-256 padding: `0x80`, zeros to 56 mod 64, then the 64-bit bit length. -/
def sha256Pad (msg : List Nat) : List Nat :=
  msg ++ [128] ++ List.replicate ((119 - msg.length % 64) % 64) 0 ++ be64 (8 * msg.length)

/-- Big-endian bytes-to-words conversion. -/
def toWordsBE : List Nat → List Nat
  | b0 :: b1 :: b2 :: b3 :: rest =>
      (((b0 * 256 + b1) * 256 + b2) * 256 + b3) :: toWordsBE rest
  | _ => []

/-- σ₀. -/
def ssig0 (x : Nat) : Nat := rotr32 7 x ^^^ rotr32 18 x ^^^ (x >>> 3)

/-- σ₁. -/
def ssig1 (x : Nat) : Nat := rotr32 17 x ^^^ rotr32 19 x ^^^ (x >>> 10)

/-- Σ₀. -/
def bsig0 (x : Nat) : Nat := rotr32 2 x ^^^ rotr32 13 x ^^^ rotr32 22 x

/-- Σ₁. -/
def bsig1 (x : Nat) : Nat := rotr32 6 x ^^^ rotr32 11 x ^^^ rotr32 25 x

/-- Message-schedule extension of the 16 block words to 64. -/
def sha256Sched (w16 : List Nat) : List Nat :=
  (List.range 48).foldl
    (fun w j =>
      w ++ [(w.getD j 0 + ssig0 (w.getD (j + 1) 0) + w.getD (j + 9) 0
              + ssig1 (w.getD (j + 14) 0)) % M32])
    w16

/-- One compression round on the state `[a, b, c, d, e, f, g, h]`. -/
def sha256Round (s : List Nat) (kw : Nat × Nat) : List Nat :=
  match s with
  | [a, b, c, d, e, f, g, h] =>
    let t1 := (h + bsig1 e + ((e &&& f) ^^^ (bnot32 e &&& g)) + kw.1 + kw.2) % M32
    let t2 := (bsig0 a + ((a &&& b) ^^^ (a &&& c) ^^^ (b &&& c))) % M32
    [(t1 + t2) % M32, a, b, c, (d + t1) % M32, e, f, g]
  | other => other

/-- Compression of one 64-byte block into the hash state. -/
def sha256Block (h : List Nat) (block : List Nat) : List Nat :=
  let w := sha256Sched (toWordsBE block)
  let s := (sha256K.zip w).foldl sha256Round h
  (h.zip s).map (fun p => (p.1 + p.2) % M32)

/-- Fold the 64-byte blocks into the state; `fuel` bounds the recursion (the
caller passes the byte length, and every step consumes 64 bytes). -/
def sha256Iter : Nat → List Nat → List Nat → List Nat
  | 0, h, _ => h
  | fuel + 1, h, bytes =>
    if bytes = [] then h
    else sha256Iter fuel (sha256Block h (bytes.take 64)) (bytes.drop 64)

/-- Lowercase hex digit. -/
def hexDigit (n : Nat) : Char :=
  if n < 10 then Char.ofNat (48 + n) else Char.ofNat (87 + n)

/-- Eight-hex-digit rendering of a 32-bit word. -/
def hex8 (x : Nat) : List Char :=
  (List.range 8).map (fun i => hexDigit ((x >>> (4 * (7 - i))) % 16))

/-- SHA-256 hex digest of a byte list (`hashlib.sha256(b).hexdigest()`). -/
def sha256Hex (msg : List Nat) : String :=
  let padded := sha256Pad msg
  String.mk ((sha256Iter padded.length sha256H0 padded).flatMap hex8)

/-- UTF-8 encoding of a character (Python `str.encode()` is UTF-8). -/
def utf8Char (c : Char) : List Nat :=
  let n := c.toNat
  if n < 128 then [n]
  else if n < 2048 then [192 + n / 64, 128 + n % 64]
  else if n < 65536 then [224 + n / 4096, 128 + (n / 64) % 64, 128 + n % 64]
  else [240 + n / 262144, 128 + (n / 4096) % 64, 128 + (n / 64) % 64, 128 + n % 64]

/-- UTF-8 encoding of a string. -/
def utf8Bytes (s : String) : List Nat :=
  s.toList.flatMap utf8Char

/-- A pydantic `Message` from `routers/chat.py` (both fields required). -/
structure PMessage where
  role : String
  content : String
deriving DecidableEq

/-- `hash_prompt` from `routers/chat.py`: SHA-256 hex digest of the
concatenation of `f"{m.role}:{m.content}"` over the messages in order. -/
def hash_prompt (messages : List PMessage) : String :=
  sha256Hex (utf8Bytes (String.join (messages.map (fun m => m.role ++ ":" ++ m.content))))

/-! ## Enforcement orchestrator (`app/routers/chat.py`)

`chat_completions` is embedded as a pure function.  External effects are
parameters: the fresh request UUID, the client IP, the upstream call's outcome
and measured latency.  The audit logs and alerts it submits to the background
task queue are collected in the result. -/

/-- The gateway settings consumed by `chat_completions` (`app/config.py`).
`alert_slack_webhook` is a string, `""` meaning unset. -/
structure Settings where
  pii_detection_enabled : Bool := true
  enforcement_mode : String := "enforce"
  ai_provider : String := "openai"
  default_model : String := "gpt-4o"
  alert_slack_webhook : String := ""
deriving DecidableEq

/-- `provider.get_provider_name()` for the provider chosen by `get_provider`
(`"azure"` selects the Azure adapter, anything else the OpenAI adapter). -/
def providerName (s : Settings) : String :=
  if s.ai_provider = "azure" then "azure" else "openai"

/-- `ChatCompletionRequest`, restricted to the fields the orchestrator reads
(unknown extra fields are forwarded verbatim and never inspected). -/
structure ChatBody where
  model : Option String := none
  messages : List PMessage := []
  stream : Bool := false
deriving DecidableEq

/-- The parts of an upstream JSON response the orchestrator reads:
`response_data.get("id")` and the `usage` token counts, plus the HTTP status. -/
structure UpstreamResponse where
  respId : Option String := none
  prompt_tokens : Option Nat := none
  completion_tokens : Option Nat := none
  status : Nat := 200
deriving DecidableEq

/-- Outcome of `await provider.chat_completion(payload)`:
`httpx.TimeoutException`, another `httpx.RequestError`, or a response. -/
inductive UpstreamOutcome
  | timeout
  | requestError (message : String)
  | ok (resp : UpstreamResponse)
deriving DecidableEq

/-- A value stored in the audit `metadata` dict: a string, a list of strings,
or JSON `null` (Python `None`). -/
inductive MetaValue
  | vs (s : String)
  | vl (l : List String)
  | vnull
deriving DecidableEq

/-- An optional string as a metadata value (`None` becomes `null`). -/
def optMeta : Option String → MetaValue
  | some s => .vs s
  | none => .vnull

/-- The audit-log dict built by `chat_completions` and handed to
`send_audit_log`. -/
structure AuditRecord where
  id : String
  org_id : String
  app_id : String
  user_id : Option String
  model : String
  provider : String
  prompt_hash : String
  token_count_input : Option Nat
  token_count_output : Option Nat
  latency_ms : Nat
  risk_flags : List String
  metadata : List (String × MetaValue)
deriving DecidableEq

/-- `Violation` dataclass from `alerter.py` (the `datetime.utcnow` timestamp
is elided — it is an external clock read). -/
structure Violation where
  violation_type : String
  violations : List String
  org_id : Option String := none
  app_id : Option String := none
  user_id : Option String := none
  model : Option String := none
  request_id : Option String := none
  action_taken : String := "blocked"
  severity : String := "high"
deriving DecidableEq

/-- The observable outcome of one `chat_completions` request: HTTP status,
the audit logs and violation alerts submitted to the background task queue,
and the message list forwarded upstream (`none` when no upstream call was
attempted). -/
structure RunResult where
  status : Nat
  audits : List AuditRecord
  alerts : List Violation
  forwarded : Option (List Msg)
deriving DecidableEq

/-- Python truthiness of a plain list. -/
def pyList {α : Type} (l : List α) : Bool :=
  !l.isEmpty

/-- The forwarding tail of `chat_completions`, from `provider.chat_completion`
onwards: 504 on timeout and 502 on transport error (no audit record on
either), otherwise the audit record is built and submitted, a `pii_masked`
alert is submitted when masking happened and the Slack webhook is configured,
and the upstream status is propagated when it is an error (the success body
is returned with status 200). -/
def forwardPhase (settings : Settings) (body : ChatBody) (model : String)
    (msgs : List Msg) (x_app_key x_user_id x_org_id : Option String)
    (request_id : String) (client_ip : Option String)
    (upstream : UpstreamOutcome) (latency_ms : Nat)
    (risk_flags : List String) (action_taken : String)
    (violations : List String) : RunResult :=
  match upstream with
  | .timeout => { status := 504, audits := [], alerts := [], forwarded := some msgs }
  | .requestError _ => { status := 502, audits := [], alerts := [], forwarded := some msgs }
  | .ok resp =>
    let audit : AuditRecord :=
      { id := request_id
      , org_id := pyOrStr x_org_id "default"
      , app_id := pyOrStr x_app_key "unknown"
      , user_id := x_user_id
      , model := model
      , provider := providerName settings
      , prompt_hash := hash_prompt body.messages
      , token_count_input := resp.prompt_tokens
      , token_count_output := resp.completion_tokens
      , latency_ms := latency_ms
      , risk_flags := risk_flags
      , metadata :=
          [("client_ip", optMeta client_ip),
           ("request_id", optMeta resp.respId),
           ("action", .vs action_taken),
           ("violations", if violations = [] then .vnull else .vl violations)] }
    let alerts : List Violation :=
      if action_taken = "masked" && settings.alert_slack_webhook ≠ "" then
        [{ violation_type := "pii_masked"
         , violations := risk_flags
         , org_id := x_org_id
         , app_id := x_app_key
         , user_id := x_user_id
         , model := some model
         , request_id := some request_id
         , action_taken := "masked"
         , severity := "medium" }]
      else []
    { status := if resp.status ≥ 400 then resp.status else 200
    , audits := [audit]
    , alerts := alerts
    , forwarded := some msgs }

/-- The message dicts `chat_completions` builds from the request body
(`messages_dict = [{"role": m.role, "content": m.content} for m in ...]`). -/
def messagesDictOf (body : ChatBody) : List Msg :=
  body.messages.map (fun m => { role := some m.role, content := some m.content })

/-- The scan `chat_completions` performs (`prompt_scanner.scan(messages_dict)`,
with the module-level `PromptScanner(detector=PIIDetector())` whose
`scan_roles` is `None`). -/
def scanOf (patterns : List PIIPattern) (body : ChatBody) : ScanResult :=
  PromptScanner.scan { detector := { patterns := patterns } } (messagesDictOf body)

/-- The policy decision `chat_completions` reaches for a request
(`policy_engine.evaluate(...)` on the scan of the original messages). -/
def decisionOf (settings : Settings) (policy : Policy) (patterns : List PIIPattern)
    (body : ChatBody) (x_app_key x_org_id : Option String) : PolicyResult :=
  evaluate policy (pyOrStr body.model settings.default_model) x_app_key x_org_id
    (scanOf patterns body)

/-- True exactly when `chat_completions` takes the 403 early return before
the provider call: PII detection on, `enforce` mode, and a BLOCK decision. -/
def blocksBeforeForward (settings : Settings) (policy : Policy)
    (patterns : List PIIPattern) (body : ChatBody)
    (x_app_key x_org_id : Option String) : Bool :=
  settings.pii_detection_enabled
    && decide (settings.enforcement_mode = "enforce")
    && (decisionOf settings policy patterns body x_app_key x_org_id).should_block

/-- `chat_completions`: the per-request enforcement state machine.  Streaming
is rejected with 400; with PII detection enabled the conversation is scanned
and the policy evaluated; in `enforce` mode a BLOCK decision returns 403 with
a `blocked` audit record and an alert, and a MASK decision rewrites the
forwarded messages; `warn` mode only flips `action_taken` to `"warned"`;
`log_only` changes nothing.  The request is then forwarded. -/
def chatCompletions (settings : Settings) (policy : Policy)
    (patterns : List PIIPattern) (body : ChatBody)
    (x_app_key x_user_id x_org_id : Option String)
    (request_id : String) (client_ip : Option String)
    (upstream : UpstreamOutcome) (latency_ms : Nat) : RunResult :=
  if body.stream then
    { status := 400, audits := [], alerts := [], forwarded := none }
  else
    let model := pyOrStr body.model settings.default_model
    let messages_dict : List Msg := messagesDictOf body
    if settings.pii_detection_enabled then
      let scan_result := scanOf patterns body
      let risk_flags := if scan_result.has_pii then scan_result.risk_flags else []
      let policy_result := decisionOf settings policy patterns body x_app_key x_org_id
      let violations := policy_result.violations
      if settings.enforcement_mode = "enforce" && policy_result.should_block then
        let violation : Violation :=
          { violation_type := if pyList risk_flags then "pii_detected" else "policy_violation"
          , violations := violations
          , org_id := x_org_id
          , app_id := x_app_key
          , user_id := x_user_id
          , model := some model
          , request_id := some request_id
          , action_taken := "blocked"
          , severity := if scan_result.critical_found then "critical" else "high" }
        let audit : AuditRecord :=
          { id := request_id
          , org_id := pyOrStr x_org_id "default"
          , app_id := pyOrStr x_app_key "unknown"
          , user_id := x_user_id
          , model := model
          , provider := settings.ai_provider
          , prompt_hash := hash_prompt body.messages
          , token_count_input := none
          , token_count_output := none
          , latency_ms := 0
          , risk_flags := risk_flags
          , metadata :=
              [("action", .vs "blocked"),
               ("violations", .vl violations),
               ("reason", .vs policy_result.reason)] }
        { status := 403, audits := [audit], alerts := [violation], forwarded := none }
      else
        let msgs :=
          if settings.enforcement_mode = "enforce" && policy_result.should_mask then
            mask_from_scan_result messages_dict scan_result (some policy_result.pii_to_mask)
          else messages_dict
        let action_taken :=
          if settings.enforcement_mode = "enforce" then
            if policy_result.should_mask then "masked" else "allowed"
          else if settings.enforcement_mode = "warn" then
            if policy_result.should_block || pyList policy_result.warnings then "warned"
            else "allowed"
          else "allowed"
        forwardPhase settings body model msgs x_app_key x_user_id x_org_id
          request_id client_ip upstream latency_ms risk_flags action_taken violations
    else
      forwardPhase settings body model messages_dict x_app_key x_user_id x_org_id
        request_id client_ip upstream latency_ms [] "allowed" []

/-! ## Audit store write (`services/audit/app/routers/logs.py`) -/

/-- The `AuditLogCreate` request schema. -/
structure AuditLogCreate where
  id : Option String := none
  org_id : String
  app_id : String
  user_id : Option String := none
  model : String
  provider : String
  prompt_hash : String
  token_count_input : Option Nat := none
  token_count_output : Option Nat := none
  latency_ms : Option Nat := none
  risk_flags : List String := []
  metadata : List (String × MetaValue) := []
deriving DecidableEq

/-- A persisted `audit_logs` row. -/
structure AuditRow where
  id : String
  org_id : String
  app_id : String
  user_id : Option String
  model : String
  provider : String
  prompt_hash : String
  token_count_input : Option Nat
  token_count_output : Option Nat
  latency_ms : Option Nat
  risk_flags : List String
  metadata : List (String × MetaValue)
  created_at : Nat
deriving DecidableEq

/-- The audit table: rows in insertion order, with `id` as primary key. -/
abbrev AuditStore := List AuditRow

/-- A database integrity violation surfaced by `db.commit()`. -/
inductive DbError
  | integrityError
deriving DecidableEq

/-- `create_audit_log`: `db.add(db_log); db.commit()` with `id` the table's
primary key and no conflict handling, so committing a row whose id already
exists raises `IntegrityError`; otherwise the row is appended.  `uuid.UUID`
parsing is elided (ids are opaque strings); `fresh` is the `uuid4()` drawn
when `log.id` is falsy, and `now` the row's `created_at` clock read.  On
success the response row and the new store are returned; on error the store
is unchanged (the failed transaction is not committed). -/
def create_audit_log (log : AuditLogCreate) (db : AuditStore) (fresh : String)
    (now : Nat) : Except DbError (AuditRow × AuditStore) :=
  let log_id := pyOrStr log.id fresh
  let row : AuditRow :=
    { id := log_id
    , org_id := log.org_id
    , app_id := log.app_id
    , user_id := log.user_id
    , model := log.model
    , provider := log.provider
    , prompt_hash := log.prompt_hash
    , token_count_input := log.token_count_input
    , token_count_output := log.token_count_output
    , latency_ms := log.latency_ms
    , risk_flags := log.risk_flags
    , metadata := log.metadata
    , created_at := now }
  if db.any (fun r => r.id = log_id) then Except.error DbError.integrityError
  else Except.ok (row, db ++ [row])

/-! ## Specification-side helper definitions -/

/-- The maximum severity over a detection list, `LOW` when empty (the spec's
"`highest_severity` == max severity across all detections, else LOW";
`severityRank` is an order embedding, so this is the maximum w.r.t. the
severity order). -/
def maxSeverity (l : List Detection) : Severity :=
  l.foldl (fun s d => if severityRank d.severity > severityRank s then d.severity else s)
    Severity.LOW

/-- The maximum severity rank over a detection list, `0` when empty. -/
def maxRank (l : List Detection) : Nat :=
  l.foldl (fun n d => max n (severityRank d.severity)) 0

/-! ## Concrete fixtures used by counterexamples and witnesses -/

/-- The fixture prompt text: a US-format phone number followed by an email
address. -/
def fixText : String := "call 555-123-4567 a@b.co"

/-- A recogniser behaving like the PHONE pattern on the fixture text (the
regex engine is abstracted, so its match list on the fixture is spelled
out). -/
def fixPhonePat : PIIPattern :=
  { pii_type := .PHONE, severity := .MEDIUM
  , finditer := fun s => if s = fixText then [⟨5, 17, "555-123-4567"⟩] else [] }

/-- A recogniser behaving like the EMAIL pattern on the fixture text. -/
def fixEmailPat : PIIPattern :=
  { pii_type := .EMAIL, severity := .MEDIUM
  , finditer := fun s => if s = fixText then [⟨18, 24, "a@b.co"⟩] else [] }

/-- Fixture registry, in `PII_PATTERNS` order (EMAIL precedes PHONE). -/
def fixPatterns : List PIIPattern := [fixEmailPat, fixPhonePat]

/-- A request body whose single user message is the fixture text. -/
def fixBody : ChatBody := { messages := [{ role := "user", content := fixText }] }

/-- A policy that masks EMAIL and PHONE. -/
def fixMaskPolicy : Policy := { rules := { mask_if := ["EMAIL", "PHONE"] } }

/-- A policy that blocks PHONE. -/
def fixBlockPolicy : Policy := { rules := { block_if := ["PHONE"] } }

/-- Gateway settings in `log_only` mode. -/
def fixLogOnly : Settings := { enforcement_mode := "log_only" }

/-- Gateway settings in `warn` mode. -/
def fixWarnMode : Settings := { enforcement_mode := "warn" }

/-- What actually happens to a request under each enforcement mode, as the
spec's mode table prescribes for a given policy decision: in `enforce` a
BLOCK decision blocks (403) and a MASK decision rewrites the forwarded
messages; in `warn` a suppressed BLOCK decision (or any warnings) yields
only a warning log, recorded as `"warned"`; in `log_only` the request is
always forwarded untouched, and an `enforce`-mode WARN/ALLOW decision also
forwards untouched, so those are `"allowed"`.  Spec-side comparator for the
audit record's `metadata.action` field. -/
def expectedAction (mode : String) (d : PolicyResult) : String :=
  if mode = "enforce" then
    if d.should_block then "blocked"
    else if d.should_mask then "masked"
    else "allowed"
  else if mode = "warn" then
    if d.should_block || pyList d.warnings then "warned" else "allowed"
  else "allowed"

/-- A policy document whose default rules block PAN and whose `org_overrides`
entry for tenant `"acme"` is the empty dict (no field specified). -/
def c2Data : PolicyData :=
  { rules := some { block_if := some ["PAN"] }
  , org_overrides := some [("acme", {})] }

/-- An audit-log submission with an explicit id. -/
def c5Log : AuditLogCreate :=
  { id := some "11111111-1111-1111-1111-111111111111"
  , org_id := "acme", app_id := "app-1", model := "gpt-4o"
  , provider := "openai", prompt_hash := "aa" }

/-- A store already holding a row with the same id as `c5Log`. -/
def c5Store : AuditStore :=
  [{ id := "11111111-1111-1111-1111-111111111111"
   , org_id := "acme", app_id := "app-1", user_id := none, model := "gpt-4o"
   , provider := "openai", prompt_hash := "aa", token_count_input := none
   , token_count_output := none, latency_ms := none, risk_flags := []
   , metadata := [], created_at := 0 }]

/-- A single EMAIL detection covering the whole fixture email text. -/
def c6Det : Detection := mkDetection .EMAIL "a@b.co" 0 6 .MEDIUM

/-- An EMAIL detection whose span length (16) equals the length of
`[EMAIL_REDACTED]`, inside a 20-character text. -/
def c6DetEq : Detection := mkDetection .EMAIL "aaaaaa@bbbbbbbbb.co" 2 18 .MEDIUM

/-- A 20-character text containing `c6DetEq`'s span `[2, 18)`. -/
def c6Text : List Char := "zz aaaaaa@bbbbbb.cc!".toList

/-- Lexicographic (code-point) comparison of character lists; this is how
Python compares strings. -/
def lexLe : List Char → List Char → Bool
  | [], _ => true
  | _ :: _, [] => false
  | x :: xs, y :: ys =>
    if x.toNat < y.toNat then true
    else if y.toNat < x.toNat then false
    else lexLe xs ys

/-- Lexicographic string comparison (Python `<=` on `str`), used to state the
spec's "sorted lexicographically on the type string". -/
def strLe (a b : String) : Bool :=
  lexLe a.toList b.toList

/-- A detection list is sorted ascending by `start`. -/
def SortedByStart (l : List Detection) : Prop :=
  List.Pairwise (fun a b => a.start ≤ b.start) l

/-- No two detections of the list have overlapping ranges. -/
def NoOverlap (l : List Detection) : Prop :=
  List.Pairwise (fun a b => rangesOverlap (a.start, a.stop) (b.start, b.stop) = false) l

/-! ## Theorems -/

/-- Looking a key up in a value-mapped association list maps the lookup
result. -/
theorem lookup_map_snd {β γ : Type} (f : β → γ) (k : String) :
    ∀ l : List (String × β),
      (l.map (fun kv => (kv.1, f kv.2))).lookup k = (l.lookup k).map f
  | [] => rfl
  | kv :: rest => by
    cases hk : k == kv.1 with
    | true => simp [List.lookup, hk]
    | false => simp [List.lookup, hk, lookup_map_snd f k rest]

/-- Claim C2, counterexample: in the policy document `c2Data` the `"acme"`
override specifies no field, yet its effective `block_if` is the default
rules' `["PAN"]`, not the claimed zero-value default `[]`. -/
theorem c2_counterexample :
    ((Policy.from_dict c2Data).get_rules_for_org (some "acme")).block_if = ["PAN"]
    ∧ (Policy.from_dict c2Data).rules.block_if = ["PAN"]
    ∧ (["PAN"] : List String) ≠ [] := by
  refine ⟨by decide, by decide, by decide⟩

/-- Claim C2 (amended): for every policy document with an org override, a
field left unspecified in the override inherits the value of the
corresponding field of the parsed default rules (`override_data.get(field,
rules.<field>)`); only explicitly specified fields replace it. -/
theorem c2_theorem (data : PolicyData) (org : String) (od : RulesData)
    (h : (data.org_overrides.getD []).lookup org = some od) :
    (Policy.from_dict data).org_overrides.lookup org =
      some { block_if := od.block_if.getD (Policy.from_dict data).rules.block_if
           , mask_if := od.mask_if.getD (Policy.from_dict data).rules.mask_if
           , warn_if := od.warn_if.getD (Policy.from_dict data).rules.warn_if
           , allowed_models := od.allowed_models.getD (Policy.from_dict data).rules.allowed_models
           , blocked_models := od.blocked_models.getD (Policy.from_dict data).rules.blocked_models
           , allowed_apps := od.allowed_apps.getD (Policy.from_dict data).rules.allowed_apps
           , blocked_apps := od.blocked_apps.getD (Policy.from_dict data).rules.blocked_apps } := by
  show ((data.org_overrides.getD []).map _).lookup org = _
  rw [lookup_map_snd, h]
  rfl

/-- Witness for C2's amended theorem at the concrete document `c2Data`. -/
theorem c2_witness :
    (Policy.from_dict c2Data).org_overrides.lookup "acme" =
      some { block_if := ({} : RulesData).block_if.getD (Policy.from_dict c2Data).rules.block_if
           , mask_if := ({} : RulesData).mask_if.getD (Policy.from_dict c2Data).rules.mask_if
           , warn_if := ({} : RulesData).warn_if.getD (Policy.from_dict c2Data).rules.warn_if
           , allowed_models := ({} : RulesData).allowed_models.getD (Policy.from_dict c2Data).rules.allowed_models
           , blocked_models := ({} : RulesData).blocked_models.getD (Policy.from_dict c2Data).rules.blocked_models
           , allowed_apps := ({} : RulesData).allowed_apps.getD (Policy.from_dict c2Data).rules.allowed_apps
           , blocked_apps := ({} : RulesData).blocked_apps.getD (Policy.from_dict c2Data).rules.blocked_apps } :=
  c2_theorem c2Data "acme" {} (by decide)

/-- Claim C5, counterexample: submitting `c5Log` against a store already
holding a row with the same id raises an integrity error instead of behaving
as `ON CONFLICT DO NOTHING`. -/
theorem c5_counterexample :
    create_audit_log c5Log c5Store "22222222-2222-2222-2222-222222222222" 1 =
      Except.error DbError.integrityError := by
  rfl

/-- Claim C5 (amended): the audit write endpoint is not idempotent on id —
submitting a record whose id already exists in the store fails with a
database integrity error (the stored record is left unchanged, but the retry
surfaces an error instead of succeeding as a no-op). -/
theorem c5_theorem (log : AuditLogCreate) (db : AuditStore) (fresh : String) (now : Nat)
    (h : db.any (fun r => r.id = pyOrStr log.id fresh) = true) :
    create_audit_log log db fresh now = Except.error DbError.integrityError := by
  unfold create_audit_log
  simp only [h]
  rfl

/-- Witness for C5's amended theorem at the concrete store `c5Store`. -/
theorem c5_witness :
    (c5Store.any (fun r => r.id = pyOrStr c5Log.id "33333333-3333-3333-3333-333333333333") = true)
    ∧ create_audit_log c5Log c5Store "33333333-3333-3333-3333-333333333333" 2 =
        Except.error DbError.integrityError :=
  ⟨by decide, c5_theorem c5Log c5Store "33333333-3333-3333-3333-333333333333" 2 (by decide)⟩

/-- Claim C1, counterexample: a concrete non-blocked request whose upstream
call times out gets HTTP 504 but NO audit record is submitted at all (so in
particular none carrying `metadata.upstream_error = "timeout"`). -/
theorem c1_counterexample :
    (chatCompletions {} fixMaskPolicy fixPatterns fixBody none none none "rid-1" none
        UpstreamOutcome.timeout 7).status = 504
    ∧ (chatCompletions {} fixMaskPolicy fixPatterns fixBody none none none "rid-1" none
        UpstreamOutcome.timeout 7).audits = [] := by
  refine ⟨rfl, rfl⟩

/-- Claim C1 (amended): when the upstream provider call times out on a
request that was not already blocked (and not rejected for streaming), the
orchestrator returns HTTP 504 and emits NO audit record — in particular no
record with `metadata.upstream_error` is ever produced. -/
theorem c1_theorem (settings : Settings) (policy : Policy) (patterns : List PIIPattern)
    (body : ChatBody) (x_app_key x_user_id x_org_id : Option String)
    (request_id : String) (client_ip : Option String) (latency_ms : Nat)
    (hs : body.stream = false)
    (hb : blocksBeforeForward settings policy patterns body x_app_key x_org_id = false) :
    (chatCompletions settings policy patterns body x_app_key x_user_id x_org_id
        request_id client_ip UpstreamOutcome.timeout latency_ms).status = 504
    ∧ (chatCompletions settings policy patterns body x_app_key x_user_id x_org_id
        request_id client_ip UpstreamOutcome.timeout latency_ms).audits = [] := by
  cases hp : settings.pii_detection_enabled with
  | false =>
    constructor <;> simp [chatCompletions, hs, hp, forwardPhase]
  | true =>
    have hcond : (decide (settings.enforcement_mode = "enforce")
        && (decisionOf settings policy patterns body x_app_key x_org_id).should_block) = false := by
      have h := hb
      unfold blocksBeforeForward at h
      rw [hp] at h
      simpa using h
    constructor <;> simp [chatCompletions, hs, hp, hcond, forwardPhase]

/-- Witness for C1's amended theorem at the concrete fixture request. -/
theorem c1_witness :
    (chatCompletions {} fixMaskPolicy fixPatterns fixBody none none none "rid-1" none
        UpstreamOutcome.timeout 7).status = 504
    ∧ (chatCompletions {} fixMaskPolicy fixPatterns fixBody none none none "rid-1" none
        UpstreamOutcome.timeout 7).audits = [] :=
  c1_theorem {} fixMaskPolicy fixPatterns fixBody none none none "rid-1" none 7
    (by decide) (by decide)

/-- Claim C4, counterexample: in `log_only` mode a request whose policy
decision is BLOCK is forwarded, and its (single) audit record carries
`metadata.action = "allowed"` but NO `decision` metadata key at all — the
suppressed decision is not recorded as the claim (and scenario S7) state. -/
theorem c4_counterexample :
    ((chatCompletions fixLogOnly fixBlockPolicy fixPatterns fixBody none none none "rid-4" none
        (UpstreamOutcome.ok {}) 5).audits.map (fun a => a.metadata.lookup "decision")) = [none]
    ∧ ((chatCompletions fixLogOnly fixBlockPolicy fixPatterns fixBody none none none "rid-4" none
        (UpstreamOutcome.ok {}) 5).audits.map (fun a => a.metadata.lookup "action"))
        = [some (MetaValue.vs "allowed")]
    ∧ (decisionOf fixLogOnly fixBlockPolicy fixPatterns fixBody none none).should_block = true := by
  refine ⟨by decide, by decide, by decide⟩

/-- A BLOCK decision always carries a non-empty violation list. -/
theorem evaluate_block_violations (policy : Policy) (model : String)
    (app_id org_id : Option String) (s : ScanResult) :
    (evaluate policy model app_id org_id s).should_block = true →
    (evaluate policy model app_id org_id s).violations ≠ [] := by
  simp only [evaluate]
  split
  · intro _
    simp
  · split
    · intro _
      simp
    · split
      · intro h'
        simp [PolicyResult.should_block] at h'
      · split
        case isTrue hbp =>
          intro _
          simpa using hbp
        case isFalse hbp =>
          split
          · intro h'
            simp [PolicyResult.should_block] at h'
          · split
            · intro h'
              simp [PolicyResult.should_block] at h'
            · intro h'
              simp [PolicyResult.should_block] at h'

/-- Claim C4 (amended): in EVERY enforcement mode the audit record's
`metadata.action` is exactly what actually happened to the request — the
mode table's `expectedAction` of the reached decision ("blocked"/"masked"
in `enforce`, "warned" in `warn` when a block decision or warnings were
suppressed, "allowed" otherwise, `log_only` always "allowed") — but in NO
mode does the record carry a `metadata.decision` key for a suppressed BLOCK
or MASK decision; the only trace of the decision is `metadata.violations`,
which holds the decision's violation list (JSON `null` when that list is
empty, so a suppressed MASK decision with no warnings leaves no trace). -/
theorem c4_theorem (settings : Settings) (policy : Policy) (patterns : List PIIPattern)
    (body : ChatBody) (x_app_key x_user_id x_org_id : Option String)
    (request_id : String) (client_ip : Option String) (resp : UpstreamResponse)
    (latency_ms : Nat)
    (hs : body.stream = false)
    (hp : settings.pii_detection_enabled = true) :
    (chatCompletions settings policy patterns body x_app_key x_user_id x_org_id request_id
        client_ip (UpstreamOutcome.ok resp) latency_ms).audits.all
      (fun a =>
        (a.metadata.lookup "decision" == (none : Option MetaValue))
        && (a.metadata.lookup "action" ==
              some (MetaValue.vs (expectedAction settings.enforcement_mode
                (decisionOf settings policy patterns body x_app_key x_org_id))))
        && (a.metadata.lookup "violations" ==
              some (if (decisionOf settings policy patterns body x_app_key x_org_id).violations = []
                    then MetaValue.vnull
                    else MetaValue.vl
                      (decisionOf settings policy patterns body x_app_key x_org_id).violations)))
      = true := by
  by_cases hb : (decide (settings.enforcement_mode = "enforce")
      && (decisionOf settings policy patterns body x_app_key x_org_id).should_block) = true
  · have hb' := hb
    rw [Bool.and_eq_true, decide_eq_true_eq] at hb'
    obtain ⟨hm, hsb⟩ := hb'
    have hviol : (decisionOf settings policy patterns body x_app_key x_org_id).violations ≠ [] :=
      evaluate_block_violations policy (pyOrStr body.model settings.default_model)
        x_app_key x_org_id (scanOf patterns body) hsb
    have hexp : expectedAction settings.enforcement_mode
        (decisionOf settings policy patterns body x_app_key x_org_id) = "blocked" := by
      rw [hm]
      simp [expectedAction, hsb]
    simp [chatCompletions, hs, hp, hb, hexp, List.lookup, if_neg hviol]
  · have hbf : (decide (settings.enforcement_mode = "enforce")
        && (decisionOf settings policy patterns body x_app_key x_org_id).should_block) = false :=
      Bool.eq_false_iff.mpr hb
    have hexp : (if settings.enforcement_mode = "enforce" then
          if (decisionOf settings policy patterns body x_app_key x_org_id).should_mask
          then "masked" else "allowed"
        else if settings.enforcement_mode = "warn" then
          if (decisionOf settings policy patterns body x_app_key x_org_id).should_block
              || pyList (decisionOf settings policy patterns body x_app_key x_org_id).warnings
          then "warned" else "allowed"
        else "allowed")
        = expectedAction settings.enforcement_mode
            (decisionOf settings policy patterns body x_app_key x_org_id) := by
      unfold expectedAction
      by_cases hm : settings.enforcement_mode = "enforce"
      · have hsb : (decisionOf settings policy patterns body x_app_key x_org_id).should_block
            = false := by
          rw [hm] at hbf
          simpa using hbf
        simp [hm, hsb]
      · simp [hm]
    simp [chatCompletions, hs, hp, hbf, forwardPhase, List.lookup]
    simpa using hexp

/-- Witness for C4's amended theorem at a concrete `warn`-mode fixture
request whose decision is a (suppressed) BLOCK. -/
theorem c4_witness :
    (chatCompletions fixWarnMode fixBlockPolicy fixPatterns fixBody none none none "rid-4" none
        (UpstreamOutcome.ok {}) 5).audits.all
      (fun a =>
        (a.metadata.lookup "decision" == (none : Option MetaValue))
        && (a.metadata.lookup "action" ==
              some (MetaValue.vs (expectedAction fixWarnMode.enforcement_mode
                (decisionOf fixWarnMode fixBlockPolicy fixPatterns fixBody none none))))
        && (a.metadata.lookup "violations" ==
              some (if (decisionOf fixWarnMode fixBlockPolicy fixPatterns fixBody none none).violations = []
                    then MetaValue.vnull
                    else MetaValue.vl
                      (decisionOf fixWarnMode fixBlockPolicy fixPatterns fixBody none none).violations)))
      = true :=
  c4_theorem fixWarnMode fixBlockPolicy fixPatterns fixBody none none none "rid-4" none {} 5
    rfl rfl

/-- Claim C3, counterexample: on the fixture request (phone number before
email address in the text) the MASK decision's `pii_to_mask` list is
`["PHONE", "EMAIL"]` — the type-set iteration order, which is not in
lexicographic order (`"EMAIL" < "PHONE"`). -/
theorem c3_counterexample :
    (evaluate fixMaskPolicy "gpt-4o" none none (scanOf fixPatterns fixBody)).pii_to_mask
        = ["PHONE", "EMAIL"]
    ∧ ¬ List.Pairwise (fun a b => strLe a b = true)
        (evaluate fixMaskPolicy "gpt-4o" none none (scanOf fixPatterns fixBody)).pii_to_mask := by
  refine ⟨by decide, ?_⟩
  intro hsort
  have h : (evaluate fixMaskPolicy "gpt-4o" none none (scanOf fixPatterns fixBody)).pii_to_mask
      = ["PHONE", "EMAIL"] := by decide
  rw [h] at hsort
  have := (List.pairwise_cons.mp hsort).1 "EMAIL" (by simp)
  exact absurd this (by decide)

/-- Claim C3 (amended): policy evaluation is a pure function of its inputs
(so repeated evaluation trivially yields equal decisions), and — when the
model and app checks pass — the `violations`, `pii_to_mask` and `warnings`
lists of the decision are ordered subsequences of `scan_result.risk_flags`
(the set-iteration order of the detected types); they are NOT sorted
lexicographically on the type string. -/
theorem c3_theorem (policy : Policy) (model : String) (app_id org_id : Option String)
    (s : ScanResult)
    (h1 : (policy.get_rules_for_org org_id).is_model_allowed model = true)
    (h2 : (pyTruthyStr app_id
            && !(policy.get_rules_for_org org_id).is_app_allowed (app_id.getD "")) = false) :
    (evaluate policy model app_id org_id s).violations.Sublist s.risk_flags
    ∧ (evaluate policy model app_id org_id s).pii_to_mask.Sublist s.risk_flags
    ∧ (evaluate policy model app_id org_id s).warnings.Sublist s.risk_flags := by
  simp only [evaluate, h1, h2, Bool.not_true, Bool.false_eq_true, if_false,
    PolicyRules.should_block_pii, PolicyRules.should_mask_pii, PolicyRules.should_warn_pii]
  split
  · exact ⟨List.nil_sublist _, List.nil_sublist _, List.nil_sublist _⟩
  · split
    · exact ⟨List.filter_sublist _, List.nil_sublist _, List.nil_sublist _⟩
    · split
      · exact ⟨List.nil_sublist _, List.filter_sublist _, List.filter_sublist _⟩
      · split
        · exact ⟨List.nil_sublist _, List.nil_sublist _, List.filter_sublist _⟩
        · exact ⟨List.nil_sublist _, List.nil_sublist _, List.Sublist.refl _⟩

/-- Witness for C3's amended theorem at the concrete fixture request. -/
theorem c3_witness :
    (evaluate fixMaskPolicy "gpt-4o" none none (scanOf fixPatterns fixBody)).violations.Sublist
        (scanOf fixPatterns fixBody).risk_flags
    ∧ (evaluate fixMaskPolicy "gpt-4o" none none (scanOf fixPatterns fixBody)).pii_to_mask.Sublist
        (scanOf fixPatterns fixBody).risk_flags
    ∧ (evaluate fixMaskPolicy "gpt-4o" none none (scanOf fixPatterns fixBody)).warnings.Sublist
        (scanOf fixPatterns fixBody).risk_flags :=
  c3_theorem fixMaskPolicy "gpt-4o" none none (scanOf fixPatterns fixBody)
    (by decide) (by decide)

/-- `pySetUpdate` never turns a non-empty accumulator into an empty list. -/
theorem pySetUpdate_ne_nil {α : Type} [DecidableEq α] :
    ∀ (l s : List α), s ≠ [] → pySetUpdate s l ≠ []
  | [], _, hs => hs
  | x :: xs, s, hs => by
    unfold pySetUpdate
    simp only [List.foldl_cons]
    refine pySetUpdate_ne_nil xs _ ?_
    by_cases hx : x ∈ s
    · simpa [hx] using hs
    · simp [hx]

/-- A detection result's `pii_types` list is empty iff its detection list
is. -/
theorem pii_types_eq_nil_iff (r : DetectionResult) :
    r.pii_types = [] ↔ r.detections = [] := by
  constructor
  · intro h
    cases hd : r.detections with
    | nil => rfl
    | cons d ds =>
      exfalso
      have hne : r.pii_types ≠ [] := by
        unfold DetectionResult.pii_types
        rw [hd]
        simp only [List.map_cons]
        unfold pySetUpdate
        simp only [List.foldl_cons, List.not_mem_nil, if_neg, List.nil_append]
        exact pySetUpdate_ne_nil _ _ (by simp)
      exact hne h
  · intro h
    unfold DetectionResult.pii_types
    rw [h]
    rfl

/-- A sum of naturals is positive iff some summand is. -/
theorem sum_pos_iff_nat : ∀ l : List Nat, 0 < l.sum ↔ ∃ x ∈ l, 0 < x
  | [] => by simp
  | x :: xs => by
    simp only [List.sum_cons, List.mem_cons]
    rw [show (∃ y, (y = x ∨ y ∈ xs) ∧ 0 < y) ↔ (0 < x ∨ ∃ y ∈ xs, 0 < y) by
      constructor
      · rintro ⟨y, hy | hy, hpos⟩
        · exact Or.inl (hy ▸ hpos)
        · exact Or.inr ⟨y, hy, hpos⟩
      · rintro (h | ⟨y, hy, hpos⟩)
        · exact ⟨x, Or.inl rfl, h⟩
        · exact ⟨y, Or.inr hy, hpos⟩]
    rw [← sum_pos_iff_nat xs]
    omega

/-- With no role filter, the scan loop adds exactly the per-message retained
detection counts to the running total. -/
theorem scan_total_none_aux (det : PIIDetector) :
    ∀ (l : List (Nat × Msg)) (acc : ScanAcc),
      (l.foldl (scanStep ⟨det, none⟩) acc).total_detections
        = acc.total_detections
          + (l.map (fun im => (det.detect (im.2.content.getD "")).detections.length)).sum
  | [], acc => by simp
  | im :: rest, acc => by
    simp only [List.foldl_cons, List.map_cons, List.sum_cons]
    rw [scan_total_none_aux det rest]
    have hstep : (scanStep ⟨det, none⟩ acc im).total_detections
        = acc.total_detections + (det.detect (im.2.content.getD "")).detections.length := by
      unfold scanStep
      simp only [pyTruthyList, Bool.false_and, Bool.false_eq_true, if_false]
      cases hpii : (det.detect (im.2.content.getD "")).has_pii with
      | true => simp [hpii]
      | false =>
        have hlen : (det.detect (im.2.content.getD "")).detections.length = 0 := by
          unfold DetectionResult.has_pii at hpii
          simpa using hpii
        simp [hpii, hlen]
    rw [hstep]
    omega

/-- Claim C10 (confirmed): for a scanner constructed with `scan_roles = None`
(the default), `quick_check(messages)` returns true exactly when
`scan(messages).has_pii` — `quick_check` examines every message, and with no
role filter so does `scan`. -/
theorem c10_theorem (det : PIIDetector) (messages : List Msg) :
    PromptScanner.quick_check ⟨det, none⟩ messages = true
      ↔ (PromptScanner.scan ⟨det, none⟩ messages).has_pii = true := by
  unfold PromptScanner.quick_check PromptScanner.scan ScanResult.has_pii
  rw [List.any_eq_true]
  simp only [decide_eq_true_eq]
  rw [scan_total_none_aux det messages.enum ⟨[], [], Severity.LOW, 0⟩]
  have hmap : (messages.enum.map (fun im => (det.detect (im.2.content.getD "")).detections.length))
      = messages.map (fun m => (det.detect (m.content.getD "")).detections.length) := by
    conv_rhs => rw [← List.enum_map_snd messages]
    rw [List.map_map]
    rfl
  rw [hmap]
  simp only [Nat.zero_add, gt_iff_lt]
  rw [sum_pos_iff_nat]
  simp only [List.mem_map]
  constructor
  · rintro ⟨m, hm, hq⟩
    refine ⟨_, ⟨m, hm, rfl⟩, ?_⟩
    have : (det.detect (m.content.getD "")).pii_types ≠ [] := by
      unfold PIIDetector.detect_types at hq
      simpa [List.isEmpty_iff] using hq
    have hd : (det.detect (m.content.getD "")).detections ≠ [] := by
      intro hnil
      exact this ((pii_types_eq_nil_iff _).mpr hnil)
    cases hdl : (det.detect (m.content.getD "")).detections with
    | nil => exact absurd hdl hd
    | cons a as => simp [hdl]
  · rintro ⟨x, ⟨m, hm, rfl⟩, hpos⟩
    refine ⟨m, hm, ?_⟩
    have hd : (det.detect (m.content.getD "")).detections ≠ [] := by
      intro hnil
      rw [hnil] at hpos
      simp at hpos
    have : (det.detect (m.content.getD "")).pii_types ≠ [] := by
      intro hnil
      exact hd ((pii_types_eq_nil_iff _).mp hnil)
    unfold PIIDetector.detect_types
    simpa [List.isEmpty_iff] using this

/-- `_ranges_overlap` is symmetric. -/
theorem rangesOverlap_comm (r1 r2 : Nat × Nat) :
    rangesOverlap r1 r2 = rangesOverlap r2 r1 := by
  unfold rangesOverlap
  exact Bool.and_comm _ _

/-- Every element of `overlapsInto d res` is `d` or an element of `res`. -/
theorem mem_overlapsInto (d : Detection) :
    ∀ (res : List Detection) (x : Detection), x ∈ overlapsInto d res → x = d ∨ x ∈ res
  | [], x, hx => by
    simp only [overlapsInto, List.mem_singleton] at hx
    exact Or.inl hx
  | e :: rest, x, hx => by
    simp only [overlapsInto] at hx
    split at hx
    · rcases List.mem_cons.mp hx with h | h
      · split at h
        · exact Or.inl h
        · exact Or.inr (List.mem_cons.mpr (Or.inl h))
      · exact Or.inr (List.mem_cons.mpr (Or.inr h))
    · rcases List.mem_cons.mp hx with h | h
      · exact Or.inr (List.mem_cons.mpr (Or.inl h))
      · rcases mem_overlapsInto d rest x h with h' | h'
        · exact Or.inl h'
        · exact Or.inr (List.mem_cons.mpr (Or.inr h'))

/-- One step of `_remove_overlaps` preserves sortedness, pairwise
non-overlap, span well-formedness, and the bound that every kept start is at
most the incoming detection's start. -/
theorem overlapsInto_invariant (d : Detection) :
    ∀ res : List Detection,
      SortedByStart res → NoOverlap res →
      (∀ e ∈ res, e.start < e.stop) → d.start < d.stop →
      (∀ e ∈ res, e.start ≤ d.start) →
      SortedByStart (overlapsInto d res) ∧ NoOverlap (overlapsInto d res)
        ∧ (∀ e ∈ overlapsInto d res, e.start < e.stop)
        ∧ (∀ e ∈ overlapsInto d res, e.start ≤ d.start)
  | [], _, _, _, hd, _ => by
    refine ⟨?_, ?_, ?_, ?_⟩ <;> simp [overlapsInto, SortedByStart, NoOverlap, hd]
  | e :: rest, hsort, hno, hwf, hd, hmax => by
    rcases List.pairwise_cons.mp hsort with ⟨hse, hsort'⟩
    rcases List.pairwise_cons.mp hno with ⟨hne, hno'⟩
    have hwfe : e.start < e.stop := hwf e (List.mem_cons_self e rest)
    have hwf' : ∀ x ∈ rest, x.start < x.stop := fun x hx => hwf x (List.mem_cons_of_mem _ hx)
    have hmaxe : e.start ≤ d.start := hmax e (List.mem_cons_self e rest)
    have hmax' : ∀ x ∈ rest, x.start ≤ d.start := fun x hx => hmax x (List.mem_cons_of_mem _ hx)
    simp only [overlapsInto]
    split
    case isTrue ho =>
      have hod : d.start < e.stop ∧ e.start < d.stop := by
        simpa [rangesOverlap] using ho
      have hrest : rest = [] := by
        cases hr : rest with
        | nil => rfl
        | cons r rs =>
          exfalso
          have h1 : e.start ≤ r.start := hse r (by simp [hr])
          have h2 : r.start ≤ d.start := hmax' r (by simp [hr])
          have h3 : rangesOverlap (e.start, e.stop) (r.start, r.stop) = false :=
            hne r (by simp [hr])
          have h4 : r.start < r.stop := hwf' r (by simp [hr])
          have h5 : ¬(e.start < r.stop ∧ r.start < e.stop) := by
            simpa [rangesOverlap] using h3
          omega
      subst hrest
      split
      case isTrue hsev =>
        refine ⟨?_, ?_, ?_, ?_⟩ <;> simp [SortedByStart, NoOverlap, hd]
      case isFalse hsev =>
        refine ⟨?_, ?_, ?_, ?_⟩ <;> simp [SortedByStart, NoOverlap, hwfe, hmaxe]
    case isFalse ho =>
      rcases overlapsInto_invariant d rest hsort' hno' hwf' hd hmax' with ⟨ih1, ih2, ih3, ih4⟩
      have hmem : ∀ x ∈ overlapsInto d rest, x = d ∨ x ∈ rest := mem_overlapsInto d rest
      refine ⟨?_, ?_, ?_, ?_⟩
      · refine List.pairwise_cons.mpr ⟨?_, ih1⟩
        intro b hb
        rcases hmem b hb with rfl | hb'
        · exact hmaxe
        · exact hse b hb'
      · refine List.pairwise_cons.mpr ⟨?_, ih2⟩
        intro b hb
        rcases hmem b hb with rfl | hb'
        · rw [rangesOverlap_comm]
          exact Bool.eq_false_iff.mpr ho
        · exact hne b hb'
      · intro x hx
        rcases List.mem_cons.mp hx with rfl | hx'
        · exact hwfe
        · exact ih3 x hx'
      · intro x hx
        rcases List.mem_cons.mp hx with rfl | hx'
        · exact hmaxe
        · exact ih4 x hx'

/-- `_remove_overlaps` on a sorted, well-formed input produces a sorted,
pairwise non-overlapping list (fold form, with an invariant accumulator). -/
theorem removeOverlaps_invariant :
    ∀ (l acc : List Detection),
      List.Pairwise (fun a b : Detection => a.start ≤ b.start) l →
      (∀ x ∈ l, x.start < x.stop) →
      SortedByStart acc → NoOverlap acc →
      (∀ x ∈ acc, x.start < x.stop) →
      (∀ x ∈ acc, ∀ y ∈ l, x.start ≤ y.start) →
      SortedByStart (l.foldl (fun res d => overlapsInto d res) acc)
        ∧ NoOverlap (l.foldl (fun res d => overlapsInto d res) acc)
  | [], _, _, _, h3, h4, _, _ => ⟨h3, h4⟩
  | d :: rest, acc, hl, hwl, h3, h4, h5, h6 => by
    rcases List.pairwise_cons.mp hl with ⟨hdr, hl'⟩
    have hdwf : d.start < d.stop := hwl d (List.mem_cons_self d rest)
    have hwl' : ∀ x ∈ rest, x.start < x.stop := fun x hx => hwl x (List.mem_cons_of_mem _ hx)
    have hmaxd : ∀ x ∈ acc, x.start ≤ d.start :=
      fun x hx => h6 x hx d (List.mem_cons_self d rest)
    rcases overlapsInto_invariant d acc h3 h4 h5 hdwf hmaxd with ⟨i1, i2, i3, i4⟩
    simp only [List.foldl_cons]
    exact removeOverlaps_invariant rest (overlapsInto d acc) hl' hwl' i1 i2 i3
      (fun x hx y hy => le_trans (i4 x hx) (hdr y hy))

/-- Every element of `insertLe le x l` is `x` or an element of `l`. -/
theorem mem_insertLe {α : Type} (le : α → α → Bool) (x : α) :
    ∀ (l : List α) (y : α), y ∈ insertLe le x l → y = x ∨ y ∈ l
  | [], y, hy => by
    simp only [insertLe, List.mem_singleton] at hy
    exact Or.inl hy
  | z :: zs, y, hy => by
    simp only [insertLe] at hy
    split at hy
    · rcases List.mem_cons.mp hy with h | h
      · exact Or.inl h
      · exact Or.inr h
    · rcases List.mem_cons.mp hy with h | h
      · exact Or.inr (List.mem_cons.mpr (Or.inl h))
      · rcases mem_insertLe le x zs y h with h' | h'
        · exact Or.inl h'
        · exact Or.inr (List.mem_cons.mpr (Or.inr h'))

/-- Every element of `isort le l` is an element of `l`. -/
theorem mem_isort {α : Type} (le : α → α → Bool) :
    ∀ (l : List α) (y : α), y ∈ isort le l → y ∈ l
  | [], y, hy => by simp [isort] at hy
  | x :: xs, y, hy => by
    simp only [isort] at hy
    rcases mem_insertLe le x (isort le xs) y hy with h | h
    · simp [h]
    · exact List.mem_cons.mpr (Or.inr (mem_isort le xs y h))

/-- Inserting into a `start`-sorted detection list keeps it sorted. -/
theorem sorted_insertLe_start (x : Detection) :
    ∀ l : List Detection, List.Pairwise (fun a b : Detection => a.start ≤ b.start) l →
      List.Pairwise (fun a b : Detection => a.start ≤ b.start) (insertLe leStart x l)
  | [], _ => by simp [insertLe]
  | y :: ys, h => by
    rcases List.pairwise_cons.mp h with ⟨hy, hys⟩
    simp only [insertLe]
    split
    case isTrue hle =>
      have hxy : x.start ≤ y.start := by simpa [leStart] using hle
      refine List.pairwise_cons.mpr ⟨?_, h⟩
      intro b hb
      rcases List.mem_cons.mp hb with rfl | hb'
      · exact hxy
      · exact le_trans hxy (hy b hb')
    case isFalse hle =>
      have hyx : y.start ≤ x.start := by
        have hn : ¬ x.start ≤ y.start := by simpa [leStart] using hle
        omega
      refine List.pairwise_cons.mpr ⟨?_, sorted_insertLe_start x ys hys⟩
      intro b hb
      rcases mem_insertLe leStart x ys b hb with rfl | hb'
      · exact hyx
      · exact hy b hb'

/-- The `detections.sort(key=lambda d: d.start)` step sorts by `start`. -/
theorem sorted_isort_start :
    ∀ l : List Detection, List.Pairwise (fun a b : Detection => a.start ≤ b.start) (isort leStart l)
  | [] => List.Pairwise.nil
  | x :: xs => sorted_insertLe_start x (isort leStart xs) (sorted_isort_start xs)

/-- The per-match loop only adds detections whose spans come from raw
matches, so well-formedness of the matches carries over. -/
theorem matchStep_wf (p : PIIPattern) :
    ∀ (ms : List RawMatch) (acc : List Detection × Severity),
      (∀ m ∈ ms, m.start < m.stop) → (∀ x ∈ acc.1, x.start < x.stop) →
      ∀ x ∈ (ms.foldl (matchStep p) acc).1, x.start < x.stop
  | [], _, _, hacc => hacc
  | m :: ms, acc, hms, hacc => by
    simp only [List.foldl_cons]
    refine matchStep_wf p ms _ (fun m' hm' => hms m' (List.mem_cons_of_mem _ hm')) ?_
    intro x hx
    simp only [matchStep, List.mem_append, List.mem_singleton] at hx
    rcases hx with hx | rfl
    · exact hacc x hx
    · exact hms m (List.mem_cons_self m ms)

/-- Every raw detection's span is a raw match span, hence well-formed when
all matches are. -/
theorem rawScan_wf (det : PIIDetector) (text : String)
    (h : ∀ p ∈ det.patterns, ∀ m ∈ p.finditer text, m.start < m.stop) :
    ∀ x ∈ (det.rawScan text).1, x.start < x.stop := by
  unfold PIIDetector.rawScan
  have haux : ∀ (ps : List PIIPattern) (acc : List Detection × Severity),
      (∀ p ∈ ps, ∀ m ∈ p.finditer text, m.start < m.stop) →
      (∀ x ∈ acc.1, x.start < x.stop) →
      ∀ x ∈ (ps.foldl (rawStep det text) acc).1, x.start < x.stop := by
    intro ps
    induction ps with
    | nil => intro acc _ hacc; exact hacc
    | cons p ps ih =>
      intro acc hps hacc
      simp only [List.foldl_cons]
      refine ih _ (fun q hq => hps q (List.mem_cons_of_mem _ hq)) ?_
      unfold rawStep
      split
      · exact matchStep_wf p _ acc (hps p (List.mem_cons_self p ps)) hacc
      · exact hacc
  exact haux det.patterns ([], Severity.LOW) h (by simp)

/-- Claim C8 (confirmed): when every raw regex match is non-empty (true of
all the registry's recognisers), `detect(s)`'s detection list is sorted
ascending by `start` and pairwise non-overlapping.  The collapse keeps, on
overlap, the strictly-more-severe match and otherwise the earlier-kept one
(`overlapsInto`); severity preservation across the collapse is the subject of
C9. -/
theorem c8_theorem (det : PIIDetector) (text : String)
    (h : ∀ p ∈ det.patterns, ∀ m ∈ p.finditer text, m.start < m.stop) :
    SortedByStart (det.detect text).detections ∧ NoOverlap (det.detect text).detections := by
  unfold PIIDetector.detect
  split
  · exact ⟨List.Pairwise.nil, List.Pairwise.nil⟩
  · show SortedByStart (removeOverlaps (isort leStart (det.rawScan text).1))
      ∧ NoOverlap (removeOverlaps (isort leStart (det.rawScan text).1))
    have hs := sorted_isort_start (det.rawScan text).1
    have hw : ∀ x ∈ isort leStart (det.rawScan text).1, x.start < x.stop :=
      fun x hx => rawScan_wf det text h x (mem_isort leStart _ x hx)
    exact removeOverlaps_invariant (isort leStart (det.rawScan text).1) [] hs hw
      List.Pairwise.nil List.Pairwise.nil (by simp) (by simp)

/-- Witness for C8 at the concrete fixture registry and text. -/
theorem c8_witness :
    SortedByStart (PIIDetector.detect { patterns := fixPatterns } fixText).detections
    ∧ NoOverlap (PIIDetector.detect { patterns := fixPatterns } fixText).detections :=
  c8_theorem { patterns := fixPatterns } fixText (by decide)

/-- Severity ranks are at least 1. -/
theorem severityRank_pos (s : Severity) : 1 ≤ severityRank s := by
  cases s <;> simp [severityRank]

/-- `severityRank` is injective: equal ranks mean equal severities. -/
theorem severityRank_inj (a b : Severity) (h : severityRank a = severityRank b) : a = b := by
  cases a <;> cases b <;> simp_all [severityRank]

/-- Folding `max`-of-rank from an arbitrary seed. -/
theorem maxRank_foldl :
    ∀ (l : List Detection) (n : Nat),
      l.foldl (fun a d => max a (severityRank d.severity)) n = max n (maxRank l)
  | [], n => by simp [maxRank]
  | d :: ds, n => by
    unfold maxRank
    simp only [List.foldl_cons]
    rw [maxRank_foldl ds (max n (severityRank d.severity)),
        maxRank_foldl ds (max 0 (severityRank d.severity))]
    omega

/-- `maxRank` on a cons. -/
theorem maxRank_cons (d : Detection) (l : List Detection) :
    maxRank (d :: l) = max (severityRank d.severity) (maxRank l) := by
  show (d :: l).foldl (fun a x => max a (severityRank x.severity)) 0
      = max (severityRank d.severity) (maxRank l)
  rw [List.foldl_cons, maxRank_foldl l]
  omega

/-- `maxRank` on an append. -/
theorem maxRank_append (a b : List Detection) :
    maxRank (a ++ b) = max (maxRank a) (maxRank b) := by
  unfold maxRank
  rw [List.foldl_append]
  exact maxRank_foldl b _

/-- Insertion leaves the severity-rank maximum unchanged (up to adding the
inserted element). -/
theorem maxRank_insertLe (x : Detection) :
    ∀ l : List Detection,
      maxRank (insertLe leStart x l) = max (severityRank x.severity) (maxRank l)
  | [] => by simp [insertLe, maxRank_cons, maxRank]
  | y :: ys => by
    simp only [insertLe]
    split
    · rw [maxRank_cons, maxRank_cons]
    · rw [maxRank_cons, maxRank_insertLe x ys, maxRank_cons]
      omega

/-- Sorting preserves the severity-rank maximum. -/
theorem maxRank_isort :
    ∀ l : List Detection, maxRank (isort leStart l) = maxRank l
  | [] => rfl
  | x :: xs => by
    simp only [isort]
    rw [maxRank_insertLe, maxRank_isort xs, maxRank_cons]

/-- One `_remove_overlaps` step preserves the severity-rank maximum: the
dropped or replaced detection is never strictly more severe than what
remains. -/
theorem maxRank_overlapsInto (d : Detection) :
    ∀ res : List Detection,
      maxRank (overlapsInto d res) = max (maxRank res) (severityRank d.severity)
  | [] => by simp [overlapsInto, maxRank_cons, maxRank]
  | e :: rest => by
    simp only [overlapsInto]
    split
    · split
      case isTrue hsev =>
        rw [maxRank_cons, maxRank_cons]
        omega
      case isFalse hsev =>
        rw [maxRank_cons]
        omega
    · rw [maxRank_cons, maxRank_overlapsInto d rest, maxRank_cons]
      omega

/-- The `_remove_overlaps` fold preserves the severity-rank maximum. -/
theorem maxRank_removeOverlaps_fold :
    ∀ (l acc : List Detection),
      maxRank (l.foldl (fun res d => overlapsInto d res) acc) = max (maxRank acc) (maxRank l)
  | [], acc => by simp [maxRank]
  | d :: rest, acc => by
    simp only [List.foldl_cons]
    rw [maxRank_removeOverlaps_fold rest, maxRank_overlapsInto, maxRank_cons]
    omega

/-- The running-maximum fold over severities computes the rank maximum. -/
theorem sev_foldl_rank :
    ∀ (l : List Detection) (s : Severity),
      severityRank
          (l.foldl (fun s d => if severityRank d.severity > severityRank s then d.severity else s) s)
        = max (severityRank s) (maxRank l)
  | [], s => by simp [maxRank]
  | d :: ds, s => by
    simp only [List.foldl_cons]
    rw [sev_foldl_rank ds, maxRank_cons]
    have : severityRank (if severityRank d.severity > severityRank s then d.severity else s)
        = max (severityRank s) (severityRank d.severity) := by
      split <;> omega
    rw [this]
    omega

/-- The rank of `maxSeverity`. -/
theorem maxSeverity_rank (l : List Detection) :
    severityRank (maxSeverity l) = max 1 (maxRank l) := by
  unfold maxSeverity
  rw [sev_foldl_rank]
  rfl

/-- Invariant of the per-match loop: the tracked severity is the rank
maximum of the accumulated detections. -/
theorem matchStep_inv (p : PIIPattern) :
    ∀ (ms : List RawMatch) (acc : List Detection × Severity),
      severityRank acc.2 = max 1 (maxRank acc.1) →
      severityRank ((ms.foldl (matchStep p) acc).2)
        = max 1 (maxRank ((ms.foldl (matchStep p) acc).1))
  | [], _, h => h
  | m :: ms, acc, h => by
    simp only [List.foldl_cons]
    refine matchStep_inv p ms _ ?_
    show severityRank (if severityRank p.severity > severityRank acc.2 then p.severity else acc.2)
      = max 1 (maxRank (acc.1 ++ [mkDetection p.pii_type m.group m.start m.stop p.severity]))
    rw [maxRank_append, maxRank_cons]
    have : severityRank (if severityRank p.severity > severityRank acc.2 then p.severity else acc.2)
        = max (severityRank acc.2) (severityRank p.severity) := by
      split <;> omega
    rw [this, h]
    show _ = max 1 (max (maxRank acc.1) (max (severityRank p.severity) (maxRank [])))
    have h0 : maxRank ([] : List Detection) = 0 := rfl
    rw [h0]
    omega

/-- Invariant of the per-pattern loop. -/
theorem rawStep_inv (det : PIIDetector) (text : String) :
    ∀ (ps : List PIIPattern) (acc : List Detection × Severity),
      severityRank acc.2 = max 1 (maxRank acc.1) →
      severityRank ((ps.foldl (rawStep det text) acc).2)
        = max 1 (maxRank ((ps.foldl (rawStep det text) acc).1))
  | [], _, h => h
  | p :: ps, acc, h => by
    simp only [List.foldl_cons]
    refine rawStep_inv det text ps _ ?_
    unfold rawStep
    split
    · exact matchStep_inv p _ acc h
    · exact h

/-- The raw pass's tracked severity is the rank maximum of the raw
detection list. -/
theorem rawScan_inv (det : PIIDetector) (text : String) :
    severityRank (det.rawScan text).2 = max 1 (maxRank (det.rawScan text).1) := by
  unfold PIIDetector.rawScan
  exact rawStep_inv det text det.patterns ([], Severity.LOW) (by rfl)

/-- `detect`'s reported `highest_severity` equals the maximum severity of the
retained (post-collapse) detections, LOW when none are retained — even though
the code computes it over the pre-collapse match list. -/
theorem detect_highest (det : PIIDetector) (text : String) :
    (det.detect text).highest_severity = maxSeverity (det.detect text).detections := by
  unfold PIIDetector.detect
  split
  · rfl
  · show (if (removeOverlaps (isort leStart (det.rawScan text).1)).isEmpty then Severity.LOW
        else (det.rawScan text).2)
      = maxSeverity (removeOverlaps (isort leStart (det.rawScan text).1))
    split
    case isTrue hemp =>
      rw [List.isEmpty_iff.mp hemp]
      rfl
    case isFalse hemp =>
      refine severityRank_inj _ _ ?_
      rw [rawScan_inv, maxSeverity_rank]
      show _ = max 1 (maxRank ((isort leStart (det.rawScan text).1).foldl
        (fun res d => overlapsInto d res) []))
      rw [maxRank_removeOverlaps_fold, maxRank_isort]
      have h0 : maxRank ([] : List Detection) = 0 := rfl
      rw [h0]
      omega

/-- `MessageScan.detections` on a literal. -/
theorem messageScan_detections_mk (r : String) (i : Nat) (dr : DetectionResult) :
    MessageScan.detections ⟨r, i, dr⟩ = dr.detections := rfl

/-- Invariant of the scan loop: the running total is the sum of the
accumulated per-message detection counts. -/
theorem scan_fold_total (sc : PromptScanner) :
    ∀ (l : List (Nat × Msg)) (acc : ScanAcc),
      acc.total_detections = (acc.message_scans.map (fun m => m.detections.length)).sum →
      (l.foldl (scanStep sc) acc).total_detections
        = ((l.foldl (scanStep sc) acc).message_scans.map (fun m => m.detections.length)).sum
  | [], _, h => h
  | im :: rest, acc, h => by
    simp only [List.foldl_cons]
    refine scan_fold_total sc rest _ ?_
    simp only [scanStep]
    split
    · exact h
    · split
      case isTrue hpii =>
        simp only [List.map_append, List.map_cons, List.map_nil, List.sum_append,
          List.sum_cons, List.sum_nil, messageScan_detections_mk]
        omega
      case isFalse hpii =>
        have hlen : (sc.detector.detect (im.2.content.getD "")).detections.length = 0 := by
          unfold DetectionResult.has_pii at hpii
          simp at hpii
          simp [hpii]
        simp only [List.map_append, List.map_cons, List.map_nil, List.sum_append,
          List.sum_cons, List.sum_nil, messageScan_detections_mk, hlen]
        omega

/-- Invariant of the scan loop: the running highest severity has the rank
maximum of all accumulated detections. -/
theorem scan_fold_sev (sc : PromptScanner) :
    ∀ (l : List (Nat × Msg)) (acc : ScanAcc),
      severityRank acc.highest_severity
          = max 1 (maxRank (acc.message_scans.flatMap (fun m => m.detections))) →
      severityRank ((l.foldl (scanStep sc) acc).highest_severity)
        = max 1 (maxRank
            (((l.foldl (scanStep sc) acc).message_scans).flatMap (fun m => m.detections)))
  | [], _, h => h
  | im :: rest, acc, h => by
    simp only [List.foldl_cons]
    refine scan_fold_sev sc rest _ ?_
    simp only [scanStep]
    split
    · exact h
    · split
      case isTrue hpii =>
        simp only [List.flatMap_append, List.flatMap_cons, List.flatMap_nil,
          List.append_nil, messageScan_detections_mk]
        rw [maxRank_append]
        have hdr : severityRank (sc.detector.detect (im.2.content.getD "")).highest_severity
            = max 1 (maxRank (sc.detector.detect (im.2.content.getD "")).detections) := by
          rw [detect_highest, maxSeverity_rank]
        have hif : severityRank
            (if severityRank (sc.detector.detect (im.2.content.getD "")).highest_severity
                  > severityRank acc.highest_severity
             then (sc.detector.detect (im.2.content.getD "")).highest_severity
             else acc.highest_severity)
            = max (severityRank acc.highest_severity)
                (severityRank (sc.detector.detect (im.2.content.getD "")).highest_severity) := by
          split <;> omega
        rw [hif, h, hdr]
        omega
      case isFalse hpii =>
        have hnil : (sc.detector.detect (im.2.content.getD "")).detections = [] := by
          unfold DetectionResult.has_pii at hpii
          simp at hpii
          exact hpii
        simp only [List.flatMap_append, List.flatMap_cons, List.flatMap_nil,
          List.append_nil, messageScan_detections_mk, hnil]
        exact h

/-- If every per-message detection count is zero, the concatenation of all
detections is empty. -/
theorem flat_nil_of_sum_zero :
    ∀ ms : List MessageScan,
      (ms.map (fun m => m.detections.length)).sum = 0 →
      ms.flatMap (fun m => m.detections) = []
  | [], _ => rfl
  | m :: ms, h => by
    simp only [List.map_cons, List.sum_cons] at h
    simp only [List.flatMap_cons]
    have hm : m.detections = [] := List.length_eq_zero.mp (by omega)
    rw [hm, flat_nil_of_sum_zero ms (by omega)]
    rfl

/-- The scan's `total_detections` is the sum of its per-message retained
detection counts. -/
theorem scan_total (sc : PromptScanner) (messages : List Msg) :
    (sc.scan messages).total_detections
      = ((sc.scan messages).message_scans.map (fun m => m.detections.length)).sum := by
  simp only [PromptScanner.scan]
  exact scan_fold_total sc messages.enum ⟨[], [], Severity.LOW, 0⟩ rfl

/-- The scan's `highest_severity` is the maximum severity over all retained
detections of all scanned messages, LOW when there are none. -/
theorem scan_highest (sc : PromptScanner) (messages : List Msg) :
    (sc.scan messages).highest_severity
      = maxSeverity ((sc.scan messages).message_scans.flatMap (fun m => m.detections)) := by
  simp only [PromptScanner.scan]
  split
  case isTrue hpos =>
    refine severityRank_inj _ _ ?_
    rw [maxSeverity_rank]
    exact scan_fold_sev sc messages.enum ⟨[], [], Severity.LOW, 0⟩ rfl
  case isFalse hpos =>
    have htot := scan_fold_total sc messages.enum ⟨[], [], Severity.LOW, 0⟩ rfl
    have hz : ((messages.enum.foldl (scanStep sc) ⟨[], [], Severity.LOW, 0⟩).message_scans.map
        (fun m => m.detections.length)).sum = 0 := by omega
    rw [flat_nil_of_sum_zero _ hz]
    rfl

/-- Claim C9 (confirmed): `detect`'s `highest_severity` equals the maximum
severity over the detections actually retained after overlap collapse (LOW
when none) even though the code computes it over the pre-collapse match
list; and a scan's `total_detections` is the sum of the detection-list
lengths over its `MessageScan`s, with `highest_severity` the maximum over
all retained detections (LOW when none). -/
theorem c9_theorem (det : PIIDetector) (text : String) (sc : PromptScanner)
    (messages : List Msg) :
    (det.detect text).highest_severity = maxSeverity (det.detect text).detections
    ∧ (sc.scan messages).total_detections
        = ((sc.scan messages).message_scans.map (fun m => m.detections.length)).sum
    ∧ (sc.scan messages).highest_severity
        = maxSeverity ((sc.scan messages).message_scans.flatMap (fun m => m.detections)) :=
  ⟨detect_highest det text, scan_total sc messages, scan_highest sc messages⟩

/-- Claim C7 (confirmed): every audit record submitted by `chat_completions`
carries `prompt_hash = hash_prompt body.messages` — the SHA-256 hex digest of
the concatenated `role:content` over the ORIGINAL (pre-mask) messages in
order — whether the request was blocked, masked, or forwarded unmodified,
and whatever the upstream outcome. -/
theorem c7_theorem (settings : Settings) (policy : Policy) (patterns : List PIIPattern)
    (body : ChatBody) (x_app_key x_user_id x_org_id : Option String)
    (request_id : String) (client_ip : Option String)
    (upstream : UpstreamOutcome) (latency_ms : Nat) :
    (chatCompletions settings policy patterns body x_app_key x_user_id x_org_id
        request_id client_ip upstream latency_ms).audits.all
      (fun a => a.prompt_hash == hash_prompt body.messages) = true := by
  simp only [chatCompletions]
  split
  · rfl
  · split
    · split
      · simp
      · cases upstream <;> simp [forwardPhase]
    · cases upstream <;> simp [forwardPhase]

/-- Claim C6, counterexample: re-applying `mask_text` with the same (stale)
detection list rewrites the placeholder region by raw offsets and corrupts
it — masking is not idempotent in general. -/
theorem c6_counterexample :
    mask_text (mask_text ("a@b.co".toList) [c6Det] none) [c6Det] none
      ≠ mask_text ("a@b.co".toList) [c6Det] none := by
  decide

/-- One replacement step preserves the string length when the mask has the
span's length. -/
theorem maskStep_length (res : List Char) (d : Detection)
    (h1 : d.start ≤ d.stop) (h2 : d.stop ≤ res.length)
    (h3 : (get_mask_value d.pii_type).length = d.stop - d.start) :
    (maskStep res d).length = res.length := by
  unfold maskStep
  simp only [List.length_append, List.length_take, List.length_drop, h3]
  omega

/-- A run of length-preserving in-bounds replacements preserves length. -/
theorem applyMasks_length :
    ∀ (ds : List Detection) (text : List Char),
      (∀ d ∈ ds, d.start ≤ d.stop ∧ d.stop ≤ text.length
        ∧ (get_mask_value d.pii_type).length = d.stop - d.start) →
      (ds.foldl maskStep text).length = text.length
  | [], _, _ => rfl
  | d :: rest, text, hc => by
    obtain ⟨h1, h2, h3⟩ := hc d (List.mem_cons_self d rest)
    have hstep := maskStep_length text d h1 h2 h3
    have hrest : ∀ e ∈ rest, e.start ≤ e.stop ∧ e.stop ≤ (maskStep text d).length
        ∧ (get_mask_value e.pii_type).length = e.stop - e.start := by
      intro e he
      obtain ⟨g1, g2, g3⟩ := hc e (List.mem_cons_of_mem _ he)
      exact ⟨g1, by omega, g3⟩
    simp only [List.foldl_cons]
    rw [applyMasks_length rest (maskStep text d) hrest, hstep]

/-- Replacements confined to a prefix commute with appending a suffix. -/
theorem applyMasks_append :
    ∀ (ds : List Detection) (t1 t2 : List Char),
      (∀ d ∈ ds, d.start ≤ d.stop ∧ d.stop ≤ t1.length
        ∧ (get_mask_value d.pii_type).length = d.stop - d.start) →
      ds.foldl maskStep (t1 ++ t2) = (ds.foldl maskStep t1) ++ t2
  | [], _, _, _ => rfl
  | d :: rest, t1, t2, hc => by
    obtain ⟨h1, h2, h3⟩ := hc d (List.mem_cons_self d rest)
    have hstep : maskStep (t1 ++ t2) d = maskStep t1 d ++ t2 := by
      unfold maskStep
      rw [List.take_append_of_le_length (le_trans h1 h2), List.drop_append_of_le_length h2]
      simp [List.append_assoc]
    have hlen := maskStep_length t1 d h1 h2 h3
    have hrest : ∀ e ∈ rest, e.start ≤ e.stop ∧ e.stop ≤ (maskStep t1 d).length
        ∧ (get_mask_value e.pii_type).length = e.stop - e.start := by
      intro e he
      obtain ⟨g1, g2, g3⟩ := hc e (List.mem_cons_of_mem _ he)
      exact ⟨g1, by omega, g3⟩
    simp only [List.foldl_cons]
    rw [hstep]
    exact applyMasks_append rest (maskStep t1 d) t2 hrest

/-- Core idempotence: replaying a descending, pairwise-disjoint,
length-preserving replacement sequence on its own output changes nothing
(each pass rewrites each span with the same placeholder it already holds). -/
theorem applyMasks_idem :
    ∀ (ds : List Detection) (text : List Char),
      List.Pairwise (fun a b : Detection => b.stop ≤ a.start) ds →
      (∀ d ∈ ds, d.start ≤ d.stop ∧ d.stop ≤ text.length
        ∧ (get_mask_value d.pii_type).length = d.stop - d.start) →
      ds.foldl maskStep (ds.foldl maskStep text) = ds.foldl maskStep text
  | [], _, _, _ => rfl
  | d :: rest, text, hp, hc => by
    rcases List.pairwise_cons.mp hp with ⟨hd, hp'⟩
    obtain ⟨h1, h2, h3⟩ := hc d (List.mem_cons_self d rest)
    have ht1len : (text.take d.start).length = d.start := by
      rw [List.length_take]
      omega
    have hrestc : ∀ e ∈ rest, e.start ≤ e.stop ∧ e.stop ≤ (text.take d.start).length
        ∧ (get_mask_value e.pii_type).length = e.stop - e.start := by
      intro e he
      obtain ⟨g1, _, g3⟩ := hc e (List.mem_cons_of_mem _ he)
      exact ⟨g1, by rw [ht1len]; exact hd e he, g3⟩
    have hsplit : maskStep text d
        = text.take d.start ++ (get_mask_value d.pii_type ++ text.drop d.stop) := by
      unfold maskStep
      rw [List.append_assoc]
    have hfirst : (d :: rest).foldl maskStep text
        = (rest.foldl maskStep (text.take d.start))
            ++ (get_mask_value d.pii_type ++ text.drop d.stop) := by
      simp only [List.foldl_cons]
      rw [hsplit, applyMasks_append rest _ _ hrestc]
    have hAlen : (rest.foldl maskStep (text.take d.start)).length = d.start := by
      rw [applyMasks_length rest _ hrestc, ht1len]
    have hABlen : ((rest.foldl maskStep (text.take d.start)) ++ get_mask_value d.pii_type).length
        = d.stop := by
      rw [List.length_append, hAlen, h3]
      omega
    have hfix : maskStep ((rest.foldl maskStep (text.take d.start))
          ++ (get_mask_value d.pii_type ++ text.drop d.stop)) d
        = (rest.foldl maskStep (text.take d.start))
            ++ (get_mask_value d.pii_type ++ text.drop d.stop) := by
      have htk : List.take d.start ((rest.foldl maskStep (text.take d.start))
          ++ (get_mask_value d.pii_type ++ text.drop d.stop))
          = rest.foldl maskStep (text.take d.start) := List.take_left' hAlen
      have hdp : List.drop d.stop ((rest.foldl maskStep (text.take d.start))
          ++ (get_mask_value d.pii_type ++ text.drop d.stop))
          = text.drop d.stop := by
        rw [← List.append_assoc]
        exact List.drop_left' hABlen
      show List.take d.start ((rest.foldl maskStep (text.take d.start))
            ++ (get_mask_value d.pii_type ++ text.drop d.stop))
          ++ get_mask_value d.pii_type
          ++ List.drop d.stop ((rest.foldl maskStep (text.take d.start))
              ++ (get_mask_value d.pii_type ++ text.drop d.stop))
          = (rest.foldl maskStep (text.take d.start))
              ++ (get_mask_value d.pii_type ++ text.drop d.stop)
      rw [htk, hdp, List.append_assoc]
    have hArestc : ∀ e ∈ rest, e.start ≤ e.stop
        ∧ e.stop ≤ (rest.foldl maskStep (text.take d.start)).length
        ∧ (get_mask_value e.pii_type).length = e.stop - e.start := by
      intro e he
      obtain ⟨g1, _, g3⟩ := hc e (List.mem_cons_of_mem _ he)
      exact ⟨g1, by rw [hAlen]; exact hd e he, g3⟩
    calc (d :: rest).foldl maskStep ((d :: rest).foldl maskStep text)
        = rest.foldl maskStep (maskStep ((d :: rest).foldl maskStep text) d) := by
          simp only [List.foldl_cons]
      _ = rest.foldl maskStep ((rest.foldl maskStep (text.take d.start))
            ++ (get_mask_value d.pii_type ++ text.drop d.stop)) := by
          rw [hfirst, hfix]
      _ = (rest.foldl maskStep (rest.foldl maskStep (text.take d.start)))
            ++ (get_mask_value d.pii_type ++ text.drop d.stop) :=
          applyMasks_append rest _ _ hArestc
      _ = (rest.foldl maskStep (text.take d.start))
            ++ (get_mask_value d.pii_type ++ text.drop d.stop) := by
          rw [applyMasks_idem rest (text.take d.start) hp' hrestc]
      _ = (d :: rest).foldl maskStep text := hfirst.symm

/-- Stable insertion preserves any symmetric pairwise relation the inserted
element bears to the list. -/
theorem pairwise_insertLe {α : Type} (le : α → α → Bool) (R : α → α → Prop) (x : α) :
    ∀ l : List α, List.Pairwise R l → (∀ y ∈ l, R x y) → (∀ y ∈ l, R y x) →
      List.Pairwise R (insertLe le x l)
  | [], _, _, _ => List.pairwise_cons.mpr ⟨by simp, List.Pairwise.nil⟩
  | y :: ys, h, hx, hx' => by
    rcases List.pairwise_cons.mp h with ⟨hy, hys⟩
    simp only [insertLe]
    split
    · refine List.pairwise_cons.mpr ⟨?_, h⟩
      intro b hb
      exact hx b hb
    · refine List.pairwise_cons.mpr ⟨?_, ?_⟩
      · intro b hb
        rcases mem_insertLe le x ys b hb with rfl | hb'
        · exact hx' y (List.mem_cons_self y ys)
        · exact hy b hb'
      · exact pairwise_insertLe le R x ys hys
          (fun z hz => hx z (List.mem_cons_of_mem _ hz))
          (fun z hz => hx' z (List.mem_cons_of_mem _ hz))

/-- Sorting preserves any symmetric pairwise relation. -/
theorem pairwise_isort {α : Type} (le : α → α → Bool) (R : α → α → Prop)
    (hsymm : ∀ a b, R a b → R b a) :
    ∀ l : List α, List.Pairwise R l → List.Pairwise R (isort le l)
  | [], _ => List.Pairwise.nil
  | x :: xs, h => by
    rcases List.pairwise_cons.mp h with ⟨hx, hxs⟩
    exact pairwise_insertLe le R x (isort le xs) (pairwise_isort le R hsymm xs hxs)
      (fun y hy => hx y (mem_isort le xs y hy))
      (fun y hy => hsymm _ _ (hx y (mem_isort le xs y hy)))

/-- Inserting into a `start`-descending detection list keeps it descending. -/
theorem sorted_insertLe_ge (x : Detection) :
    ∀ l : List Detection, List.Pairwise (fun a b : Detection => b.start ≤ a.start) l →
      List.Pairwise (fun a b : Detection => b.start ≤ a.start) (insertLe geStart x l)
  | [], _ => by simp [insertLe]
  | y :: ys, h => by
    rcases List.pairwise_cons.mp h with ⟨hy, hys⟩
    simp only [insertLe]
    split
    case isTrue hle =>
      have hyx : y.start ≤ x.start := by simpa [geStart] using hle
      refine List.pairwise_cons.mpr ⟨?_, h⟩
      intro b hb
      rcases List.mem_cons.mp hb with rfl | hb'
      · exact hyx
      · exact le_trans (hy b hb') hyx
    case isFalse hle =>
      have hxy : x.start ≤ y.start := by
        have hn : ¬ y.start ≤ x.start := by simpa [geStart] using hle
        omega
      refine List.pairwise_cons.mpr ⟨?_, sorted_insertLe_ge x ys hys⟩
      intro b hb
      rcases mem_insertLe geStart x ys b hb with rfl | hb'
      · exact hxy
      · exact hy b hb'

/-- The `sorted(..., key=start, reverse=True)` step sorts descending. -/
theorem sorted_isort_ge :
    ∀ l : List Detection,
      List.Pairwise (fun a b : Detection => b.start ≤ a.start) (isort geStart l)
  | [] => List.Pairwise.nil
  | x :: xs => sorted_insertLe_ge x (isort geStart xs) (sorted_isort_ge xs)

/-- Every effective (post-filter) detection comes from the original list. -/
theorem effective_subset (ds : List Detection) (tm : Option (List String)) :
    ∀ d ∈ effectiveDetections ds tm, d ∈ ds := by
  unfold effectiveDetections
  split
  · intro d hd
    exact (List.mem_filter.mp hd).1
  · intro d hd
    exact hd

/-- Filtering preserves pairwise relations. -/
theorem effective_pairwise {R : Detection → Detection → Prop} (ds : List Detection)
    (tm : Option (List String)) (h : List.Pairwise R ds) :
    List.Pairwise R (effectiveDetections ds tm) := by
  unfold effectiveDetections
  split
  · exact h.filter _
  · exact h

/-- The sorted effective list is descending and pairwise-disjoint, span-wise:
each later span ends no later than the earlier span starts. -/
theorem sorted_effective_disjoint (ds : List Detection) (tm : Option (List String))
    (hno : NoOverlap ds) (hwf : ∀ d ∈ ds, d.start < d.stop) :
    List.Pairwise (fun a b : Detection => b.stop ≤ a.start)
      (isort geStart (effectiveDetections ds tm)) := by
  have hsort := sorted_isort_ge (effectiveDetections ds tm)
  have hno' : NoOverlap (isort geStart (effectiveDetections ds tm)) :=
    pairwise_isort geStart _
      (fun a b hab => by rw [rangesOverlap_comm]; exact hab)
      (effectiveDetections ds tm) (effective_pairwise ds tm hno)
  refine List.Pairwise.imp_of_mem ?_ (hsort.and hno')
  intro a b ha hb hr
  obtain ⟨hge, hnov⟩ := hr
  have hwa : a.start < a.stop := hwf a (effective_subset ds tm a (mem_isort geStart _ a ha))
  have hwb : b.start < b.stop := hwf b (effective_subset ds tm b (mem_isort geStart _ b hb))
  have : ¬(a.start < b.stop ∧ b.start < a.stop) := by simpa [rangesOverlap] using hnov
  omega

/-- Claim C6 (amended): masking is idempotent whenever each detection's
placeholder `[<TYPE>_REDACTED]` has exactly the length of its span (and the
detections are in-bounds, non-empty and pairwise non-overlapping):
`mask(mask(text, d), d) == mask(text, d)`.  In general it is NOT idempotent —
the second pass rewrites by raw offsets, not by re-matching
(`c6_counterexample`). -/
theorem c6_theorem (text : List Char) (ds : List Detection) (tm : Option (List String))
    (hno : NoOverlap ds)
    (hwf : ∀ d ∈ ds, d.start < d.stop)
    (hb : ∀ d ∈ ds, d.stop ≤ text.length)
    (hlen : ∀ d ∈ ds, (get_mask_value d.pii_type).length = d.stop - d.start) :
    mask_text (mask_text text ds tm) ds tm = mask_text text ds tm := by
  simp only [mask_text]
  by_cases h0 : ds = []
  · simp [h0]
  · simp only [if_neg h0]
    by_cases h1 : effectiveDetections ds tm = []
    · simp [h1]
    · simp only [if_neg h1]
      apply applyMasks_idem
      · exact sorted_effective_disjoint ds tm hno hwf
      · intro d hd
        have hmem : d ∈ ds := effective_subset ds tm d (mem_isort geStart _ d hd)
        exact ⟨le_of_lt (hwf d hmem), hb d hmem, hlen d hmem⟩

/-- Witness for C6's amended theorem: a single EMAIL detection whose span has
the placeholder's length (16) inside a 20-character text. -/
theorem c6_witness :
    mask_text (mask_text c6Text [c6DetEq] none) [c6DetEq] none
      = mask_text c6Text [c6DetEq] none :=
  c6_theorem c6Text [c6DetEq] none (by unfold NoOverlap; decide) (by decide) (by decide)
    (by decide)

end AIComp
